import Mathlib

/-!
The gcal widget: conflict detection, countdown and title colour.

A shallow embedding of `gcal/widget.go` (package `gcal` of the `wtf` terminal
dashboard) together with the properties its specification states about it.

Conventions of the embedding.

* A Go `time.Time` is an instant (nanoseconds since `0001-01-01T00:00:00Z`,
  which is Go's zero `Time`) plus the zone offset it was parsed with.
  `Before`/`After` compare instants only, as in Go.
* A `time.Duration` is an `Int` holding an int64 count of nanoseconds;
  `Time.Sub` saturates and `Duration.Round` wraps exactly where Go does.
* The Go standard library and the `wtf` configuration store are the
  widget's collaborators: `World` carries `time.Parse(time.RFC3339, ·)`,
  `time.Now()`, `strings.ToLower`, `regexp.MatchString` and the configuration
  lookups.  One render step is evaluated at a single clock reading.
* `*calendar.Event` is an address into a heap of events, so that the
  pointer comparison `event == otherEvent` is comparison of addresses.  The
  events of a snapshot are there (no nil entry) and carry their `Start` and
  `End`, as the calendar API delivers them.
* The methods that touch the widget (`display`, `Refresh`, `Disable`) pass a
  `WidgetState` along and return it, or the fault they end with: a panic, or
  the wait for a mutex that is taken.  The state records, in program order,
  the reads and writes of `widget.events` and the operations on the mutex.
-/

namespace Gcal

/-! ## Go's `time` package -/

/-- A Go `time.Time`: `ns` is the instant in nanoseconds since the zero time
`0001-01-01T00:00:00Z`, `offset` the zone offset in seconds east of UTC. -/
structure Time where
  ns : Int
  offset : Int
deriving DecidableEq, Repr

/-- Go's `time.Time{}`, the value `time.Parse` returns next to an error. -/
def Time.zero : Time := ⟨0, 0⟩

/-- Go's `t.Before(u)`: the instant of `t` is earlier than the one of `u`. -/
def Time.Before (t u : Time) : Bool := decide (t.ns < u.ns)

/-- Go's `t.After(u)`: the instant of `t` is later than the one of `u`. -/
def Time.After (t u : Time) : Bool := decide (t.ns > u.ns)

/-! A `time.Duration` is an int64 count of nanoseconds, held in an `Int`. -/

/-- Smallest `time.Duration`, `-1 << 63`. -/
def minDuration : Int := -9223372036854775808

/-- Largest `time.Duration`, `1<<63 - 1`. -/
def maxDuration : Int := 9223372036854775807

/-- Go's `time.Second` in nanoseconds. -/
def Second : Int := 1000000000

/-- Go's `time.Minute`. -/
def Minute : Int := 60 * Second

/-- Go's `time.Hour`. -/
def Hour : Int := 60 * Minute

/-- Two's-complement wrap of an integer to int64. -/
def wrap64 (x : Int) : Int := (x + 9223372036854775808) % 18446744073709551616 - 9223372036854775808

/-- Go's conversion `uint64(x)` of an int64. -/
def toUint64 (x : Int) : Int := x % 18446744073709551616

/-- Go's `t.Sub(u)`: the difference of the instants, or the largest (smallest)
duration when the difference does not fit an int64. -/
def Time.Sub (t u : Time) : Int :=
  let d := t.ns - u.ns
  if d < minDuration then minDuration
  else if maxDuration < d then maxDuration
  else d

/-- Go's `lessThanHalf(x, y)`: `uint64(x)+uint64(x) < uint64(y)`. -/
def lessThanHalf (x y : Int) : Bool :=
  decide ((toUint64 x + toUint64 x) % 18446744073709551616 < toUint64 y)

/-- Go's `d.Round(m)`: round to the nearest multiple of `m`, halfway values
away from zero, saturating when the result leaves int64. -/
def Duration.Round (d m : Int) : Int :=
  if m ≤ 0 then d
  else
    let r := d.tmod m
    if d < 0 then
      let r := -r
      if lessThanHalf r m then wrap64 (d + r)
      else
        let d1 := wrap64 (d - m + r)
        if d1 < d then d1 else minDuration
    else
      if lessThanHalf r m then wrap64 (d - r)
      else
        let d1 := wrap64 (d + m - r)
        if d1 > d then d1 else maxDuration

/-! ## The calendar API's event model -/

/-- The fields of `calendar.EventDateTime` the widget reads. -/
structure EventDateTime where
  Date : String
  DateTime : String
deriving DecidableEq, Repr

/-- The fields of `calendar.EventAttendee` the widget reads. -/
structure EventAttendee where
  Email : String
  ResponseStatus : String
deriving DecidableEq, Repr

/-- The fields of `calendar.Event` the widget reads. -/
structure Event where
  Summary : String
  Location : String
  Start : EventDateTime
  End : EventDateTime
  Attendees : List EventAttendee
deriving DecidableEq, Repr

/-- A `*calendar.Event`: the address of an event. -/
abbrev EventPtr := Nat

/-- The events the addresses point to. -/
abbrev Heap := EventPtr → Event

/-- A `calendar.Events`: `Items` is the `[]*calendar.Event` of one fetch. -/
structure Events where
  Items : List EventPtr
deriving DecidableEq, Repr

/-! ## Configuration and collaborators -/

/-- The `wtf.Config` lookups of the widget, each with its key. -/
structure Config where
  /-- The value of `UString("wtf.mods.gcal.colors.title", "white")`. -/
  colorsTitle : String
  /-- The value of `UString("wtf.mods.gcal.colors.description", "white")`. -/
  colorsDescription : String
  /-- The value of `UString("wtf.mods.gcal.colors.past", "gray")`. -/
  colorsPast : String
  /-- The entries of `UList("wtf.mods.gcal.colors.highlights")`, each already
  converted to its strings by `wtf.ToStrs`. -/
  colorsHighlights : List (List String)
  /-- The value of `UString("wtf.mods.gcal.currentIcon", "🔸")`. -/
  currentIcon : String
  /-- The value of `UString("wtf.mods.gcal.conflictIcon", "🚨")`. -/
  conflictIcon : String
  /-- The value of `UBool("wtf.mods.gcal.displayLocation", true)`. -/
  displayLocation : Bool
  /-- The value of `UBool("wtf.mods.gcal.displayResponseStatus", true)`. -/
  displayResponseStatus : Bool
  /-- The value of `UString("wtf.mods.gcal.email")`. -/
  email : String
  /-- The value of `UInt("wtf.mods.gcal.textInterval", 30)`. -/
  textInterval : Int

/-- What the widget obtains from outside `widget.go` during one render step. -/
structure World where
  /-- Go's `time.Parse(time.RFC3339, s)`; `none` when it returns an error. -/
  parse : String → Option Time
  /-- Go's `time.Now()`. -/
  now : Time
  /-- Go's `strings.ToLower`. -/
  toLower : String → String
  /-- Go's `regexp.MatchString(pattern, s)`; `none` when it returns an error. -/
  matchString : String → String → Option Bool
  /-- The configuration store. -/
  config : Config

/-- The first result of `time.Parse(time.RFC3339, s)` with the error
discarded (`t, _ := time.Parse(...)`): the zero time when parsing fails. -/
def World.parseTime (w : World) (s : String) : Time :=
  (w.parse s).getD Time.zero

/-- Go's `time.Until(t)`, that is `t.Sub(time.Now())`. -/
def World.timeUntil (w : World) (t : Time) : Int :=
  t.Sub w.now

/-! ## `widget.go` -/

/-- The `for ... range events.Items` loop of `conflicts`, which leaves with
`conflict = true` at the first other event that overlaps. -/
def Widget.conflictsLoop (w : World) (heap : Heap) (event : EventPtr) : List EventPtr → Bool
  | [] => false
  | otherEvent :: rest =>
    if event = otherEvent then
      Widget.conflictsLoop w heap event rest
    else
      let eventStart := w.parseTime (heap event).Start.DateTime
      let eventEnd := w.parseTime (heap event).End.DateTime
      let otherEnd := w.parseTime (heap otherEvent).End.DateTime
      let otherStart := w.parseTime (heap otherEvent).Start.DateTime
      if eventStart.Before otherEnd && eventEnd.After otherStart then
        true
      else
        Widget.conflictsLoop w heap event rest

/-- The method `conflicts`: true if this event conflicts with another. -/
def Widget.conflicts (w : World) (heap : Heap) (event : EventPtr) (events : Events) : Bool :=
  Widget.conflictsLoop w heap event events.Items

/-- The method `eventIsNow`: true if the event is happening now. -/
def Widget.eventIsNow (w : World) (event : Event) : Bool :=
  let startTime := w.parseTime event.Start.DateTime
  let endTime := w.parseTime event.End.DateTime
  w.now.After startTime && w.now.Before endTime

/-- The method `eventIsPast`. -/
def Widget.eventIsPast (w : World) (event : Event) : Bool :=
  let ts := w.parseTime event.Start.DateTime
  (Widget.eventIsNow w event == false) && ts.Before w.now

/-- The loop of `titleColor` over the highlight entries, `color` being the
colour chosen so far; `none` is the run-time fault of indexing an entry that
is too short (`highlightElements[0]`, `highlightElements[1]`). -/
def Widget.titleColorLoop (w : World) (event : Event) : List (List String) → String → Option String
  | [], color => some color
  | highlightElements :: rest, color =>
    match highlightElements[0]? with
    | none => none
    | some pattern =>
      let matched := (w.matchString (w.toLower pattern) (w.toLower event.Summary)).getD false
      if matched = true then
        match highlightElements[1]? with
        | none => none
        | some c => Widget.titleColorLoop w event rest c
      else
        Widget.titleColorLoop w event rest color

/-- The method `titleColor`; `none` when the highlight loop faults. -/
def Widget.titleColor (w : World) (event : Event) : Option String :=
  match Widget.titleColorLoop w event w.config.colorsHighlights w.config.colorsTitle with
  | none => none
  | some color =>
    if Widget.eventIsPast w event then some w.config.colorsPast else some color

/-- Go's `fmt.Sprintf("%d", n)` for an integer. -/
def sprintfD (n : Int) : String := toString n

/-- The method `until`: the countdown to the start of the event. -/
def Widget.until (w : World) (event : Event) : String :=
  let startTime := w.parseTime event.Start.DateTime
  let duration := w.timeUntil startTime
  let duration := Duration.Round duration Minute
  if duration < 0 then
    ""
  else
    let days := duration.tdiv (24 * Hour)
    let duration := duration - days * (24 * Hour)
    let hours := duration.tdiv Hour
    let duration := duration - hours * Hour
    let mins := duration.tdiv Minute
    let untilStr :=
      if days > 0 then sprintfD days ++ "d"
      else if hours > 0 then sprintfD hours ++ "h"
      else sprintfD mins ++ "m"
    "[lightblue]" ++ untilStr ++ "[white]"

/-- Go's `t.Date()`: year, month and day of the time, read in the zone offset
the time carries (proleptic Gregorian calendar, as in Go). -/
def Time.Date (t : Time) : Int × Int × Int :=
  let secs := t.ns / 1000000000 + t.offset
  let z := secs / 86400 + 306
  let era := z / 146097
  let doe := z - era * 146097
  let yoe := (doe - doe / 1460 + doe / 36524 - doe / 146096) / 365
  let doy := doe - (365 * yoe + yoe / 4 - yoe / 100)
  let mp := (5 * doy + 2) / 153
  let day := doy - (153 * mp + 2) / 5 + 1
  let month := if mp < 10 then mp + 3 else mp - 9
  let year := yoe + era * 400 + (if month ≤ 2 then 1 else 0)
  (year, month, day)

/-- Go's `t.Year()`. -/
def Time.Year (t : Time) : Int := t.Date.1

/-- Go's `t.Month()`, January being 1. -/
def Time.Month (t : Time) : Int := t.Date.2.1

/-- Go's `t.Day()`: the day of the month, 1 to 31. -/
def Time.Day (t : Time) : Int := t.Date.2.2

/-- What `eventTimestamp` obtains from outside `widget.go`: the date parser of
Go's `time` package and the two display formats of the `wtf` package. -/
structure Formatter where
  /-- Go's `time.Parse("2006-01-02", s)`; `none` when it returns an error. -/
  parseDate : String → Option Time
  /-- Go's `t.Format(wtf.FriendlyDateFormat)`. -/
  friendlyDate : Time → String
  /-- Go's `t.Format(wtf.FriendlyDateTimeFormat)`. -/
  friendlyDateTime : Time → String

/-- The method `dayDivider`; `prevEvent` is `none` for the nil pointer. -/
def Widget.dayDivider (w : World) (event : Event) (prevEvent : Option Event) : String :=
  match prevEvent with
  | some prev =>
    let prevStartTime := w.parseTime prev.Start.DateTime
    let currStartTime := w.parseTime event.Start.DateTime
    if currStartTime.Day ≠ prevStartTime.Day then "\n" else ""
  | none => ""

/-- The method `descriptionColor`. -/
def Widget.descriptionColor (w : World) (event : Event) : String :=
  if Widget.eventIsPast w event then w.config.colorsPast else w.config.colorsDescription

/-- The method `eventSummary`. -/
def Widget.eventSummary (w : World) (event : Event) (conflict : Bool) : String :=
  let summary :=
    if Widget.eventIsNow w event then w.config.currentIcon ++ " " ++ event.Summary
    else event.Summary
  if conflict then w.config.conflictIcon ++ " " ++ summary else summary

/-- The method `eventTimestamp`. -/
def Widget.eventTimestamp (w : World) (f : Formatter) (event : Event) : String :=
  if event.Start.Date.utf8ByteSize > 0 then
    f.friendlyDate ((f.parseDate event.Start.Date).getD Time.zero)
  else
    f.friendlyDateTime (w.parseTime event.Start.DateTime)

/-- The method `location`. -/
def Widget.location (w : World) (event : Event) : String :=
  if w.config.displayLocation = false then ""
  else if event.Location = "" then ""
  else "[" ++ Widget.descriptionColor w event ++ "]" ++ event.Location ++ "\n "

/-- The loop of `responseIcon` over the attendees: the response status of the
first attendee with the configured email, the empty string if there is none. -/
def Widget.responseIconLoop (w : World) : List EventAttendee → String
  | [] => ""
  | attendee :: rest =>
    if attendee.Email = w.config.email then attendee.ResponseStatus
    else Widget.responseIconLoop w rest

/-- The method `responseIcon`. -/
def Widget.responseIcon (w : World) (event : Event) : String :=
  if false = w.config.displayResponseStatus then ""
  else
    let response := Widget.responseIconLoop w event.Attendees
    let icon := "[gray]"
    if response = "accepted" then icon ++ "✔︎ "
    else if response = "declined" then icon ++ "✘ "
    else if response = "needsAction" then icon ++ "? "
    else if response = "tentative" then icon ++ "~ "
    else icon ++ ""

/-- The loop of `contentFrom` over `events.Items`: `prevEvent` is the event
rendered before, `str` the text so far. The result is `none` when `titleColor`
faults. -/
def Widget.contentFromLoop (w : World) (f : Formatter) (heap : Heap) (events : Events) :
    List EventPtr → Option EventPtr → String → Option String
  | [], _, str => some str
  | event :: rest, prevEvent, str =>
    let conflict := Widget.conflicts w heap event events
    match Widget.titleColor w (heap event) with
    | none => none
    | some titleColor =>
      Widget.contentFromLoop w f heap events rest (some event)
        (str ++ (Widget.dayDivider w (heap event) (prevEvent.map heap) ++ " " ++
          Widget.responseIcon w (heap event) ++ "[" ++ titleColor ++ "]" ++
          Widget.eventSummary w (heap event) conflict ++ "[white]\n " ++
          Widget.location w (heap event) ++ "[" ++ Widget.descriptionColor w (heap event) ++ "]" ++
          Widget.eventTimestamp w f (heap event) ++ " " ++ Widget.until w (heap event) ++
          "[white]\n\n"))

/-- The method `contentFrom`; `events` is `none` for the nil pointer. -/
def Widget.contentFrom (w : World) (f : Formatter) (heap : Heap) (events : Option Events) :
    Option String :=
  match events with
  | none => some ""
  | some events => Widget.contentFromLoop w f heap events events.Items none ""

/-- An operation on the state the widget shares with its update loop, in the
order the code performs them: a read or a write of `widget.events`, and the
taking and the release of `widget.mutex`. -/
inductive Action where
  | readEvents
  | writeEvents
  | lock
  | unlock
deriving DecidableEq, Repr

/-- How a call that does not return normally ends: a run-time panic, or a
wait for a mutex that another holder keeps. -/
inductive Fault where
  | panic
  | blocked
deriving DecidableEq, Repr

/-- The state of a `Widget`: its fields `events` (`none` for nil), `ch`
(whether it has been closed) and `mutex`, and of the embedded
`wtf.TextWidget` the text of the view, the enabled flag and the time of the
last refresh. `trace` records the operations on `events` and `mutex`. -/
structure WidgetState where
  events : Option Events
  chClosed : Bool
  mutexLocked : Bool
  viewText : String
  enabled : Bool
  refreshedAt : Time
  trace : List Action
deriving DecidableEq, Repr

/-- The two results of `Fetch()`: the events (`none` for nil) and whether the
error is non-nil. -/
structure FetchResult where
  events : Option Events
  failed : Bool
deriving DecidableEq, Repr

/-- The method `display`. -/
def Widget.display (w : World) (f : Formatter) (heap : Heap) (s : WidgetState) :
    Except Fault WidgetState :=
  match s.events with
  | none => Except.ok { s with trace := s.trace ++ [Action.readEvents] }
  | some events =>
    if events.Items.length = 0 then
      Except.ok { s with trace := s.trace ++ [Action.readEvents, Action.readEvents] }
    else if s.mutexLocked then
      Except.error Fault.blocked
    else
      match Widget.contentFrom w f heap (some events) with
      | none => Except.error Fault.panic
      | some text =>
        Except.ok { s with
          viewText := text
          trace := s.trace ++ [Action.readEvents, Action.readEvents, Action.lock,
            Action.readEvents, Action.unlock] }

/-- Modelled from the spec: `UpdateRefreshedAt` of `wtf.TextWidget` is not in
the source at hand; it is the "mark refreshed" timestamp update. -/
def WidgetState.UpdateRefreshedAt (w : World) (s : WidgetState) : WidgetState :=
  { s with refreshedAt := w.now }

/-- The method `Refresh`; `fetch` is what the call of `Fetch()` returns. -/
def Widget.Refresh (w : World) (f : Formatter) (heap : Heap) (fetch : FetchResult)
    (s : WidgetState) : Except Fault WidgetState :=
  let s := { s with events := fetch.events, trace := s.trace ++ [Action.writeEvents] }
  let s := s.UpdateRefreshedAt w
  Widget.display w f heap s

/-- Modelled from the spec: `Disable` of `wtf.TextWidget` is not in the source
at hand; it is the "disable" half of the lifecycle pair of the display sink. -/
def WidgetState.textWidgetDisable (s : WidgetState) : WidgetState :=
  { s with enabled := false }

/-- The method `Disable`: `close(widget.ch)` panics on a closed channel. -/
def Widget.Disable (s : WidgetState) : Except Fault WidgetState :=
  if s.chClosed then Except.error Fault.panic
  else Except.ok ({ s with chClosed := true }).textWidgetDisable

/-! ## A concrete world

Go's fast path for RFC 3339 (`parseRFC3339` in `time/format_rfc3339.go`),
used to evaluate the widget on concrete timestamps. -/

/-- Go's `parseUint` of `parseRFC3339`: a run of decimal digits whose value
lies in `lo..hi`. -/
def parseUint (cs : List Char) (lo hi : Nat) : Option Nat :=
  if cs.all Char.isDigit then
    let x := cs.foldl (fun acc c => acc * 10 + (c.toNat - 48)) 0
    if x < lo ∨ hi < x then none else some x
  else none

/-- Go's `isLeap`. -/
def isLeap (year : Nat) : Bool :=
  year % 4 == 0 && (year % 100 != 0 || year % 400 == 0)

/-- Go's `daysIn`. -/
def daysIn (month year : Nat) : Nat :=
  if month == 2 then (if isLeap year then 29 else 28)
  else if month == 4 || month == 6 || month == 9 || month == 11 then 30
  else 31

/-- Days from the start of the year to the start of the month. -/
def daysBefore (month year : Nat) : Nat :=
  ((List.range (month - 1)).map (fun m => daysIn (m + 1) year)).sum

/-- Days from `0001-01-01` to the first day of the year (negative for year 0). -/
def daysBeforeYear (year : Nat) : Int :=
  let y : Int := (year : Int) - 1
  365 * y + y / 4 - y / 100 + y / 400

/-- Go's `parseNanoseconds` on the digits after the point: they are read as
a fraction of a second, digits beyond the ninth dropped. -/
def parseNanoseconds (digits : List Char) : Nat :=
  let ds := digits.take 9
  ds.foldl (fun acc c => acc * 10 + (c.toNat - 48)) 0 * 10 ^ (9 - ds.length)

/-- The zone of an RFC 3339 timestamp, `Z` or `±hh:mm`, in seconds east. -/
def parseZone : List Char → Option Int
  | ['Z'] => some 0
  | [sg, h1, h2, ':', m1, m2] =>
    match parseUint [h1, h2] 0 23, parseUint [m1, m2] 0 59 with
    | some hr, some mm =>
      if sg = '+' then some (((hr * 60 + mm) * 60 : Nat) : Int)
      else if sg = '-' then some (-(((hr * 60 + mm) * 60 : Nat) : Int))
      else none
    | _, _ => none
  | _ => none

/-- Go's `parseRFC3339`: `yyyy-mm-ddThh:mm:ss[.fff](Z|±hh:mm)`. -/
def parseRFC3339 (s : String) : Option Time :=
  match s.toList with
  | y1 :: y2 :: y3 :: y4 :: '-' :: mo1 :: mo2 :: '-' :: d1 :: d2 :: 'T'
      :: h1 :: h2 :: ':' :: mi1 :: mi2 :: ':' :: s1 :: s2 :: rest =>
    match parseUint [y1, y2, y3, y4] 0 9999, parseUint [mo1, mo2] 1 12 with
    | some year, some month =>
      match parseUint [d1, d2] 1 (daysIn month year), parseUint [h1, h2] 0 23,
            parseUint [mi1, mi2] 0 59, parseUint [s1, s2] 0 59 with
      | some day, some hour, some min, some sec =>
        let frac : List Char :=
          match rest with
          | '.' :: c :: cs => if c.isDigit then c :: cs.takeWhile Char.isDigit else []
          | _ => []
        let rest := if frac.isEmpty then rest else rest.drop (frac.length + 1)
        match parseZone rest with
        | some zoneOffset =>
          let days : Int := daysBeforeYear year + daysBefore month year + (day - 1 : Nat)
          let secs : Int := days * 86400 + (hour * 3600 + min * 60 + sec : Nat) - zoneOffset
          some ⟨secs * 1000000000 + parseNanoseconds frac, zoneOffset⟩
        | none => none
      | _, _, _, _ => none
    | _, _ => none
  | _ => none

/-- ASCII lower-casing, which is what `strings.ToLower` does on ASCII text. -/
def asciiToLower (s : String) : String := String.mk (s.toList.map Char.toLower)

/-- Substring search, which is what `regexp.MatchString` does for a pattern
without metacharacters. -/
def literalMatchString (pattern s : String) : Option Bool :=
  some (decide (pattern.toList <:+: s.toList))

/-- The default configuration of the widget (the second arguments of the
lookups in `widget.go`), with no highlights and no viewer email. -/
def defaultConfig : Config where
  colorsTitle := "white"
  colorsDescription := "white"
  colorsPast := "gray"
  colorsHighlights := []
  currentIcon := "🔸"
  conflictIcon := "🚨"
  displayLocation := true
  displayResponseStatus := true
  email := ""
  textInterval := 30

/-- A world with the concrete parser and matcher, the clock reading the
given RFC 3339 timestamp. -/
def worldAt (now : String) (config : Config) : World where
  parse := parseRFC3339
  now := (parseRFC3339 now).getD Time.zero
  toLower := asciiToLower
  matchString := literalMatchString
  config := config

/-- A timed event: summary, start and end timestamps. -/
def timedEvent (summary start stop : String) : Event where
  Summary := summary
  Location := ""
  Start := ⟨"", start⟩
  End := ⟨"", stop⟩
  Attendees := []

/-- A date-only (all-day) event: `DateTime` is empty on both ends. -/
def dateOnlyEvent (summary start stop : String) : Event where
  Summary := summary
  Location := ""
  Start := ⟨start, ""⟩
  End := ⟨stop, ""⟩
  Attendees := []

/-- A heap holding the listed events at the addresses `0, 1, ...`. -/
def heapOf (es : List Event) : Heap :=
  fun p => es.getD p (timedEvent "" "" "")

/-! ## Events and worlds of the examples -/

/-- Three timed events on one morning: the first two overlap, the third
follows them. -/
def morningHeap : Heap :=
  heapOf [timedEvent "Standup" "2024-01-01T09:00:00Z" "2024-01-01T10:00:00Z",
          timedEvent "Review" "2024-01-01T09:30:00Z" "2024-01-01T10:30:00Z",
          timedEvent "Lunch" "2024-01-01T12:00:00Z" "2024-01-01T13:00:00Z"]

/-- The world of the examples: the clock reads eight in the morning of
2024-01-01 (UTC), the configuration is the default one. -/
def morningWorld : World := worldAt "2024-01-01T08:00:00Z" defaultConfig

/-- The parsed start of the event at an address, in the concrete world. -/
def startOf (heap : Heap) (p : EventPtr) : Time :=
  (parseRFC3339 (heap p).Start.DateTime).getD Time.zero

/-- The parsed end of the event at an address, in the concrete world. -/
def endOf (heap : Heap) (p : EventPtr) : Time :=
  (parseRFC3339 (heap p).End.DateTime).getD Time.zero

/-- Two back-to-back meetings: the second starts the instant the first ends. -/
def backToBackHeap : Heap :=
  heapOf [timedEvent "Planning" "2024-01-01T09:00:00Z" "2024-01-01T10:00:00Z",
          timedEvent "Retro" "2024-01-01T10:00:00Z" "2024-01-01T11:00:00Z"]

/-- The same meeting stored twice, at two addresses. -/
def twinHeap : Heap :=
  heapOf [timedEvent "Standup" "2024-01-01T09:00:00Z" "2024-01-01T10:00:00Z",
          timedEvent "Standup" "2024-01-01T09:00:00Z" "2024-01-01T10:00:00Z"]

/-- An event whose start is not RFC 3339 (no `T`, no zone) but whose end is,
next to an earlier, well-formed meeting. -/
def brokenStartHeap : Heap :=
  heapOf [timedEvent "Workshop" "2024-01-01 09:00:00" "2024-01-01T10:00:00Z",
          timedEvent "Breakfast" "2024-01-01T07:00:00Z" "2024-01-01T07:30:00Z"]

/-- An event whose end is not RFC 3339, overlapping a well-formed one. -/
def brokenEndHeap : Heap :=
  heapOf [timedEvent "Workshop" "2024-01-01T09:00:00Z" "ten",
          timedEvent "Review" "2024-01-01T09:30:00Z" "2024-01-01T10:30:00Z"]

/-- An all-day event next to a timed event that begins an hour before the
instant `0001-01-01T00:00:00Z` and ends an hour after it. -/
def yearOneHeap : Heap :=
  heapOf [dateOnlyEvent "Holiday" "2024-01-01" "2024-01-02",
          timedEvent "Epoch" "0000-12-31T23:00:00Z" "0001-01-01T01:00:00Z"]

/-- An all-day event among the timed events of a morning. -/
def holidayHeap : Heap :=
  heapOf [dateOnlyEvent "Holiday" "2024-01-01" "2024-01-02",
          timedEvent "Standup" "2024-01-01T09:00:00Z" "2024-01-01T10:00:00Z",
          timedEvent "Review" "2024-01-01T09:30:00Z" "2024-01-01T10:30:00Z"]

/-- A meeting that starts 25 hours and 30 minutes after eight in the morning
of 2024-01-01. -/
def tomorrowEvent : Event := timedEvent "Offsite" "2024-01-02T09:30:00Z" "2024-01-02T17:00:00Z"

/-- A meeting that started twenty seconds before the clock reading. -/
def justStartedEvent : Event := timedEvent "Standup" "2024-01-01T07:59:40Z" "2024-01-01T08:30:00Z"

/-- The configuration of the specification's example: `meeting` is
highlighted yellow, `standup` green, everything else as by default. -/
def highlightConfig : Config :=
  { defaultConfig with colorsHighlights := [["meeting", "yellow"], ["standup", "green"]] }

/-- The world of the examples with the highlight rules configured. -/
def highlightWorld : World := worldAt "2024-01-01T08:00:00Z" highlightConfig

/-- A meeting later in the morning. -/
def standupEvent : Event :=
  timedEvent "Daily Standup Meeting" "2024-01-01T09:00:00Z" "2024-01-01T09:15:00Z"

/-- A meeting that ended before the clock reading. -/
def earlyStandupEvent : Event :=
  timedEvent "Daily Standup Meeting" "2024-01-01T07:00:00Z" "2024-01-01T07:15:00Z"

/-- A formatter for the examples: dates are parsed as midnight UTC of the day
and shown as `year-month-day`. -/
def plainFormatter : Formatter where
  parseDate := fun s => parseRFC3339 (s ++ "T00:00:00Z")
  friendlyDate := fun t => toString t.Year ++ "-" ++ toString t.Month ++ "-" ++ toString t.Day
  friendlyDateTime := fun t => toString t.Year ++ "-" ++ toString t.Month ++ "-" ++ toString t.Day

/-- An all-day event on 15 January. -/
def holidayEvent : Event := dateOnlyEvent "Holiday" "2024-01-15" "2024-01-16"

/-- A meeting in the morning of 15 January. -/
def januaryEvent : Event :=
  timedEvent "Standup" "2024-01-15T09:00:00Z" "2024-01-15T09:15:00Z"

/-- A meeting in the afternoon of 15 January. -/
def januaryLateEvent : Event :=
  timedEvent "Review" "2024-01-15T15:00:00Z" "2024-01-15T16:00:00Z"

/-- A meeting on 16 January. -/
def januaryNextEvent : Event :=
  timedEvent "Planning" "2024-01-16T09:00:00Z" "2024-01-16T10:00:00Z"

/-- A meeting in the morning of 15 February, a month after `januaryEvent`. -/
def februaryEvent : Event :=
  timedEvent "Standup" "2024-02-15T09:00:00Z" "2024-02-15T09:15:00Z"

/-- A widget as `NewWidget` leaves it: no snapshot yet, the channel open, the
mutex free, nothing shown. -/
def freshWidget : WidgetState where
  events := none
  chClosed := false
  mutexLocked := false
  viewText := ""
  enabled := true
  refreshedAt := Time.zero
  trace := []

/-- The widget state after a call, or the given state when the call faults. -/
def stateAfter (r : Except Fault WidgetState) (otherwise : WidgetState) : WidgetState :=
  match r with
  | Except.ok s => s
  | Except.error _ => otherwise

/-- The fresh widget after a `Refresh` whose fetch delivers the three morning
events: it stores them and shows their rendering. -/
def renderedWidget : WidgetState :=
  stateAfter (Widget.Refresh morningWorld plainFormatter morningHeap
    ⟨some ⟨[0, 1, 2]⟩, false⟩ freshWidget) freshWidget

/-- The rendered widget after a further `Refresh` whose fetch fails and
delivers nil. -/
def failedFetchWidget : WidgetState :=
  stateAfter (Widget.Refresh morningWorld plainFormatter morningHeap
    ⟨none, true⟩ renderedWidget) renderedWidget

/-- An invitation sent to three people, the viewer second among them. -/
def invitationEvent : Event where
  Summary := "Offsite"
  Location := "Room 1"
  Start := ⟨"", "2024-01-01T09:00:00Z"⟩
  End := ⟨"", "2024-01-01T10:00:00Z"⟩
  Attendees := [⟨"ann@example.com", "declined"⟩, ⟨"me@example.com", "accepted"⟩,
    ⟨"bob@example.com", "tentative"⟩]

/-- The world of the examples with the viewer's email configured. -/
def viewerWorld : World :=
  worldAt "2024-01-01T08:00:00Z" { defaultConfig with email := "me@example.com" }

/-- The world of the examples at half past nine, during the first two of the
morning events. -/
def midMorningWorld : World := worldAt "2024-01-01T09:30:00Z" highlightConfig

/-- A configuration whose only highlight entry lacks its colour. -/
def shortEntryConfig : Config :=
  { defaultConfig with colorsHighlights := [["standup"]] }

/-- The world of the examples with the short highlight entry configured. -/
def shortEntryWorld : World := worldAt "2024-01-01T08:00:00Z" shortEntryConfig

/-- A configuration that highlights all-day holidays in red. -/
def holidayConfig : Config :=
  { defaultConfig with colorsHighlights := [["holiday", "red"]] }

/-- The world of the examples with the holiday highlight configured. -/
def holidayWorld : World := worldAt "2024-01-01T08:00:00Z" holidayConfig

/-! ## The words of the specification

The notions the specification states its properties with, to be compared with
what the code computes. -/

/-- Strict overlap of two intervals given by their start and end times, as the
specification words it: `E.start < F.end` and `E.end > F.start`. -/
def strictlyOverlap (eStart eEnd fStart fEnd : Time) : Prop :=
  eStart.ns < fEnd.ns ∧ eEnd.ns > fStart.ns

instance (eStart eEnd fStart fEnd : Time) : Decidable (strictlyOverlap eStart eEnd fStart fEnd) := by
  unfold strictlyOverlap; infer_instance

/-- The countdown unit the specification describes for a rounded duration
`d ≥ 0` (in nanoseconds): the whole days in `d` if there are any, else the
whole hours in the remainder if there are any, else the whole minutes in the
remainder. -/
def countdownUnit (d : Int) : String :=
  let n := d.toNat
  let days := n / 86400000000000
  let hours := n % 86400000000000 / 3600000000000
  let mins := n % 86400000000000 % 3600000000000 / 60000000000
  if days > 0 then toString days ++ "d"
  else if hours > 0 then toString hours ++ "h"
  else toString mins ++ "m"

/-- The duration `until` works with: `time.Until(startTime)` rounded to the
minute, as computed by the code. -/
def roundedUntil (w : World) (event : Event) : Int :=
  Duration.Round (w.timeUntil (w.parseTime event.Start.DateTime)) Minute

/-- Whether a highlight rule matches a summary: the lower-cased pattern
matches the lower-cased summary. -/
def ruleMatches (w : World) (summary : String) (rule : String × String) : Bool :=
  w.matchString (w.toLower rule.1) (w.toLower summary) == some true

/-- The colour the specification describes: that of the last rule, in list
order, that matches the summary, or the configured title colour. -/
def lastMatchColor (w : World) (rules : List (String × String)) (summary : String) : String :=
  match (rules.filter (ruleMatches w summary)).getLast? with
  | some rule => rule.2
  | none => w.config.colorsTitle

/-- The text of the display sink after a call, `none` when the call faults. -/
def sinkText (r : Except Fault WidgetState) : Option String :=
  match r with
  | Except.ok s => some s.viewText
  | Except.error _ => none

/-- The stored snapshot after a call, `none` when the call faults. -/
def storedSnapshot (r : Except Fault WidgetState) : Option (Option Events) :=
  match r with
  | Except.ok s => some s.events
  | Except.error _ => none

/-- The recorded operations after a call, `none` when the call faults. -/
def traceAfter (r : Except Fault WidgetState) : Option (List Action) :=
  match r with
  | Except.ok s => some s.trace
  | Except.error _ => none

/-- The lock discipline the specification asks for: every read and every write
of the snapshot in the list of operations happens while the mutex is held,
`held` telling whether it is held at the start. -/
def everyAccessUnderMutex : Bool → List Action → Bool
  | _, [] => true
  | _, Action.lock :: rest => everyAccessUnderMutex true rest
  | _, Action.unlock :: rest => everyAccessUnderMutex false rest
  | held, Action.readEvents :: rest => held && everyAccessUnderMutex held rest
  | held, Action.writeEvents :: rest => held && everyAccessUnderMutex held rest

/-- The glyph table of the specification for a response status: a check for
accepted, a cross for declined, a question mark for needsAction, a tilde for
tentative, and no glyph for anything else. -/
def responseGlyph (status : String) : String :=
  if status = "accepted" then "✔︎ "
  else if status = "declined" then "✘ "
  else if status = "needsAction" then "? "
  else if status = "tentative" then "~ "
  else ""

/-! ## Properties of `conflicts` and `eventIsNow` -/

/-- The loop of `conflicts` answers true exactly when the list holds another
address whose event strictly overlaps, timestamps read with errors dropped. -/
theorem conflictsLoop_iff (w : World) (heap : Heap) (e : EventPtr) (items : List EventPtr) :
    Widget.conflictsLoop w heap e items = true ↔
      ∃ f ∈ items, f ≠ e ∧
        strictlyOverlap (w.parseTime (heap e).Start.DateTime) (w.parseTime (heap e).End.DateTime)
          (w.parseTime (heap f).Start.DateTime) (w.parseTime (heap f).End.DateTime) := by
  induction items with
  | nil => simp [Widget.conflictsLoop]
  | cons o rest ih =>
    unfold Widget.conflictsLoop
    by_cases heq : e = o
    · subst heq
      simp only [if_true, ih, List.mem_cons]
      constructor
      · rintro ⟨f, hf, hne, hov⟩
        exact ⟨f, Or.inr hf, hne, hov⟩
      · rintro ⟨f, hf | hf, hne, hov⟩
        · exact absurd hf hne
        · exact ⟨f, hf, hne, hov⟩
    · simp only [if_neg heq, List.mem_cons]
      by_cases hov : strictlyOverlap (w.parseTime (heap e).Start.DateTime)
          (w.parseTime (heap e).End.DateTime) (w.parseTime (heap o).Start.DateTime)
          (w.parseTime (heap o).End.DateTime)
      · have hb : ((w.parseTime (heap e).Start.DateTime).Before (w.parseTime (heap o).End.DateTime)
            && (w.parseTime (heap e).End.DateTime).After (w.parseTime (heap o).Start.DateTime)) = true := by
          simp only [Time.Before, Time.After, Bool.and_eq_true, decide_eq_true_eq]
          exact hov
        simp only [hb, if_true, true_iff]
        exact ⟨o, Or.inl rfl, fun h => heq h.symm, hov⟩
      · have hb : ((w.parseTime (heap e).Start.DateTime).Before (w.parseTime (heap o).End.DateTime)
            && (w.parseTime (heap e).End.DateTime).After (w.parseTime (heap o).Start.DateTime)) = false := by
          rw [Bool.eq_false_iff]
          intro h
          simp only [Time.Before, Time.After, Bool.and_eq_true, decide_eq_true_eq] at h
          exact hov h
        simp only [hb, Bool.false_eq_true, if_false, ih]
        constructor
        · rintro ⟨f, hf, hne, hov2⟩
          exact ⟨f, Or.inr hf, hne, hov2⟩
        · rintro ⟨f, hf | hf, hne, hov2⟩
          · subst hf
            exact absurd hov2 hov
          · exact ⟨f, hf, hne, hov2⟩

/-- The method `conflicts` answers false exactly when no other address of the
snapshot holds a strictly overlapping event. -/
theorem conflicts_eq_false_iff (w : World) (heap : Heap) (e : EventPtr) (S : Events) :
    Widget.conflicts w heap e S = false ↔
      ∀ f ∈ S.Items, f ≠ e →
        ¬ strictlyOverlap (w.parseTime (heap e).Start.DateTime) (w.parseTime (heap e).End.DateTime)
          (w.parseTime (heap f).Start.DateTime) (w.parseTime (heap f).End.DateTime) := by
  rw [← Bool.not_eq_true, Widget.conflicts, conflictsLoop_iff]
  constructor
  · intro h f hf hne hov
    exact h ⟨f, hf, hne, hov⟩
  · rintro h ⟨f, hf, hne, hov⟩
    exact h f hf hne hov

/-- A timestamp that parses is read as its parsed value. -/
theorem parseTime_of_parse (w : World) (s : String) (t : Time) (h : w.parse s = some t) :
    w.parseTime s = t := by
  simp [World.parseTime, h]

/-- A timestamp that fails to parse is read as the zero time. -/
theorem parseTime_of_fail (w : World) (s : String) (h : w.parse s = none) :
    w.parseTime s = Time.zero := by
  simp [World.parseTime, h]

/-- C1: in a snapshot whose events all have parseable RFC 3339 start and end
timestamps, `conflicts(E, S)` is true if and only if some event `F` of `S`,
distinct from `E` by identity, has `E.start < F.end` and `E.end > F.start`. -/
theorem conflicts_iff_exists_overlap (w : World) (heap : Heap) (S : Events) (e : EventPtr)
    (start stop : EventPtr → Time)
    (hstart : ∀ p ∈ S.Items, w.parse (heap p).Start.DateTime = some (start p))
    (hstop : ∀ p ∈ S.Items, w.parse (heap p).End.DateTime = some (stop p))
    (he : e ∈ S.Items) :
    Widget.conflicts w heap e S = true ↔
      ∃ f ∈ S.Items, f ≠ e ∧ (start e).ns < (stop f).ns ∧ (stop e).ns > (start f).ns := by
  rw [Widget.conflicts, conflictsLoop_iff]
  rw [parseTime_of_parse w _ _ (hstart e he), parseTime_of_parse w _ _ (hstop e he)]
  constructor
  · rintro ⟨f, hf, hne, hov⟩
    rw [parseTime_of_parse w _ _ (hstart f hf), parseTime_of_parse w _ _ (hstop f hf)] at hov
    exact ⟨f, hf, hne, hov⟩
  · rintro ⟨f, hf, hne, hov⟩
    refine ⟨f, hf, hne, ?_⟩
    rw [parseTime_of_parse w _ _ (hstart f hf), parseTime_of_parse w _ _ (hstop f hf)]
    exact hov

/-- Witness of C1: among the three morning events the first conflicts, and it
does so because of the second. -/
theorem conflicts_iff_exists_overlap_witness :
    (∀ p ∈ [0, 1, 2], morningWorld.parse (morningHeap p).Start.DateTime = some (startOf morningHeap p)) ∧
    (Widget.conflicts morningWorld morningHeap 0 ⟨[0, 1, 2]⟩ = true ↔
      ∃ f ∈ [0, 1, 2], f ≠ 0 ∧ (startOf morningHeap 0).ns < (endOf morningHeap f).ns ∧
        (endOf morningHeap 0).ns > (startOf morningHeap f).ns) :=
  ⟨by decide,
   conflicts_iff_exists_overlap morningWorld morningHeap ⟨[0, 1, 2]⟩ 0
    (startOf morningHeap) (endOf morningHeap) (by decide) (by decide) (by decide)⟩

/-- C2: for distinct timed events `A` and `B` of a snapshot, a strict overlap
of their intervals makes `conflicts` true for both of them; and when no two
distinct events of the snapshot strictly overlap, `conflicts` is false for
every event of the snapshot. -/
theorem conflicts_symmetric_and_disjoint (w : World) (heap : Heap) (S : Events)
    (start stop : EventPtr → Time)
    (hstart : ∀ p ∈ S.Items, w.parse (heap p).Start.DateTime = some (start p))
    (hstop : ∀ p ∈ S.Items, w.parse (heap p).End.DateTime = some (stop p)) :
    (∀ a ∈ S.Items, ∀ b ∈ S.Items, a ≠ b →
        (start a).ns < (stop b).ns → (stop a).ns > (start b).ns →
        Widget.conflicts w heap a S = true ∧ Widget.conflicts w heap b S = true) ∧
    ((∀ a ∈ S.Items, ∀ b ∈ S.Items, a ≠ b →
        ¬ ((start a).ns < (stop b).ns ∧ (stop a).ns > (start b).ns)) →
      ∀ e ∈ S.Items, Widget.conflicts w heap e S = false) := by
  constructor
  · intro a ha b hb hne h1 h2
    constructor
    · rw [Widget.conflicts, conflictsLoop_iff]
      refine ⟨b, hb, fun h => hne h.symm, ?_⟩
      rw [parseTime_of_parse w _ _ (hstart a ha), parseTime_of_parse w _ _ (hstop a ha),
        parseTime_of_parse w _ _ (hstart b hb), parseTime_of_parse w _ _ (hstop b hb)]
      exact ⟨h1, h2⟩
    · rw [Widget.conflicts, conflictsLoop_iff]
      refine ⟨a, ha, hne, ?_⟩
      rw [parseTime_of_parse w _ _ (hstart a ha), parseTime_of_parse w _ _ (hstop a ha),
        parseTime_of_parse w _ _ (hstart b hb), parseTime_of_parse w _ _ (hstop b hb)]
      exact ⟨h2, h1⟩
  · intro hdis e he
    rw [conflicts_eq_false_iff]
    intro f hf hne
    rw [parseTime_of_parse w _ _ (hstart e he), parseTime_of_parse w _ _ (hstop e he),
      parseTime_of_parse w _ _ (hstart f hf), parseTime_of_parse w _ _ (hstop f hf)]
    exact hdis e he f hf (fun h => hne h.symm)

/-- Witness of C2: the overlapping Standup and Review both conflict in the
morning snapshot, and in the snapshot of Standup and Lunch nothing does. -/
theorem conflicts_symmetric_and_disjoint_witness :
    (Widget.conflicts morningWorld morningHeap 0 ⟨[0, 1, 2]⟩ = true ∧
      Widget.conflicts morningWorld morningHeap 1 ⟨[0, 1, 2]⟩ = true) ∧
    (∀ e ∈ [0, 2], Widget.conflicts morningWorld morningHeap e ⟨[0, 2]⟩ = false) :=
  ⟨(conflicts_symmetric_and_disjoint morningWorld morningHeap ⟨[0, 1, 2]⟩
      (startOf morningHeap) (endOf morningHeap) (by decide) (by decide)).1
      0 (by decide) 1 (by decide) (by decide) (by decide) (by decide),
   (conflicts_symmetric_and_disjoint morningWorld morningHeap ⟨[0, 2]⟩
      (startOf morningHeap) (endOf morningHeap) (by decide) (by decide)).2 (by decide)⟩

/-- C3: touching boundaries are not a conflict. For two timed events `E` and
`F` with `E.end` and `F.start` the same instant, in a snapshot made of `E` and
`F` only, `conflicts` is false for `E` and for `F` (whatever their lengths, so
in particular when each has start ≤ end). -/
theorem touching_boundaries_no_conflict (w : World) (heap : Heap) (e f : EventPtr)
    (items : List EventPtr) (eStart eEnd fStart fEnd : Time)
    (hitems : ∀ p ∈ items, p = e ∨ p = f)
    (heS : w.parse (heap e).Start.DateTime = some eStart)
    (heE : w.parse (heap e).End.DateTime = some eEnd)
    (hfS : w.parse (heap f).Start.DateTime = some fStart)
    (hfE : w.parse (heap f).End.DateTime = some fEnd)
    (htouch : eEnd.ns = fStart.ns) :
    Widget.conflicts w heap e ⟨items⟩ = false ∧ Widget.conflicts w heap f ⟨items⟩ = false := by
  constructor
  · rw [conflicts_eq_false_iff]
    intro p hp hne
    rcases hitems p hp with h | h
    · exact absurd h hne
    · subst h
      rw [parseTime_of_parse w _ _ heS, parseTime_of_parse w _ _ heE,
        parseTime_of_parse w _ _ hfS, parseTime_of_parse w _ _ hfE]
      unfold strictlyOverlap
      omega
  · rw [conflicts_eq_false_iff]
    intro p hp hne
    rcases hitems p hp with h | h
    · subst h
      rw [parseTime_of_parse w _ _ heS, parseTime_of_parse w _ _ heE,
        parseTime_of_parse w _ _ hfS, parseTime_of_parse w _ _ hfE]
      unfold strictlyOverlap
      omega
    · exact absurd h hne

/-- Witness of C3: two back-to-back meetings do not conflict. -/
theorem touching_boundaries_no_conflict_witness :
    (endOf backToBackHeap 0).ns = (startOf backToBackHeap 1).ns ∧
    Widget.conflicts morningWorld backToBackHeap 0 ⟨[0, 1]⟩ = false ∧
    Widget.conflicts morningWorld backToBackHeap 1 ⟨[0, 1]⟩ = false :=
  ⟨by decide,
   touching_boundaries_no_conflict morningWorld backToBackHeap 0 1 [0, 1]
    (startOf backToBackHeap 0) (endOf backToBackHeap 0)
    (startOf backToBackHeap 1) (endOf backToBackHeap 1)
    (by decide) (by decide) (by decide) (by decide) (by decide) (by decide)⟩

/-- C4: an event never conflicts with itself. `conflicts(E, S)` is false when
every entry of `S` is `E` itself (the same address). The exclusion is by
identity, not by field values: a second event `F` at another address with the
very same fields is compared against `E`, so that `conflicts(E, [E, F])` is
true exactly when `E` starts before it ends. -/
theorem conflicts_self_excluded_by_identity (w : World) (heap : Heap) (e : EventPtr) :
    (∀ S : Events, (∀ p ∈ S.Items, p = e) → Widget.conflicts w heap e S = false) ∧
    (∀ f : EventPtr, f ≠ e → heap f = heap e →
      (Widget.conflicts w heap e ⟨[e, f]⟩ = true ↔
        (w.parseTime (heap e).Start.DateTime).ns < (w.parseTime (heap e).End.DateTime).ns)) := by
  constructor
  · intro S hS
    rw [conflicts_eq_false_iff]
    intro f hf hne
    exact absurd (hS f hf) hne
  · intro f hne hsame
    rw [Widget.conflicts, conflictsLoop_iff]
    constructor
    · rintro ⟨p, hp, hpne, hov⟩
      simp only [List.mem_cons, List.mem_singleton, List.not_mem_nil, or_false] at hp
      rcases hp with h | h
      · exact absurd h hpne
      · subst h
        rw [hsame] at hov
        exact hov.1
    · intro hlt
      refine ⟨f, by simp, hne, ?_⟩
      rw [hsame]
      exact ⟨hlt, hlt⟩

/-- Witness of C4: a snapshot listing one address twice reports no conflict,
while the twin at another address does conflict. -/
theorem conflicts_self_excluded_by_identity_witness :
    Widget.conflicts morningWorld twinHeap 0 ⟨[0, 0]⟩ = false ∧
    twinHeap 1 = twinHeap 0 ∧
    Widget.conflicts morningWorld twinHeap 0 ⟨[0, 1]⟩ = true :=
  ⟨(conflicts_self_excluded_by_identity morningWorld twinHeap 0).1 ⟨[0, 0]⟩ (by decide),
   by decide,
   ((conflicts_self_excluded_by_identity morningWorld twinHeap 0).2 1 (by decide) (by decide)).2
    (by decide)⟩

/-- Counterexample to C5 as stated: the Workshop's start fails to parse, the
Workshop is in the snapshot, and yet `conflicts` returns true for it: its
start is read as the zero time, which is before the end of Breakfast, and the
Workshop ends after Breakfast starts. -/
theorem conflicts_unparseable_start_counterexample :
    morningWorld.parse (brokenStartHeap 0).Start.DateTime = none ∧
    0 ∈ (Events.mk [0, 1]).Items ∧
    Widget.conflicts morningWorld brokenStartHeap 0 ⟨[0, 1]⟩ = true := by
  decide

/-- C5, amended: `conflicts` always returns, reading a timestamp that fails to
parse as the zero time `0001-01-01T00:00:00Z`. If the end of `E` fails to
parse, `conflicts(E, S)` is false provided no other event of `S` starts before
the zero time. If the start of `E` fails to parse, `conflicts(E, S)` is true
exactly when some other event `F` of `S` ends after the zero time and starts
before the end of `E`. -/
theorem conflicts_unparseable_reads_zero (w : World) (heap : Heap) (e : EventPtr) (S : Events) :
    (w.parse (heap e).End.DateTime = none →
      (∀ f ∈ S.Items, f ≠ e → 0 ≤ (w.parseTime (heap f).Start.DateTime).ns) →
      Widget.conflicts w heap e S = false) ∧
    (w.parse (heap e).Start.DateTime = none →
      (Widget.conflicts w heap e S = true ↔
        ∃ f ∈ S.Items, f ≠ e ∧ 0 < (w.parseTime (heap f).End.DateTime).ns ∧
          (w.parseTime (heap e).End.DateTime).ns > (w.parseTime (heap f).Start.DateTime).ns)) := by
  constructor
  · intro hend hother
    rw [conflicts_eq_false_iff]
    intro f hf hne
    rw [parseTime_of_fail w _ hend]
    have h0 := hother f hf hne
    unfold strictlyOverlap
    simp only [Time.zero]
    omega
  · intro hstart
    rw [Widget.conflicts, conflictsLoop_iff, parseTime_of_fail w _ hstart]
    simp only [strictlyOverlap, Time.zero]

/-- Witness of amended C5: an event with an unparseable end is reported as
not conflicting, and the Workshop with the unparseable start conflicts with
Breakfast, which ends after the zero time and starts before the Workshop ends. -/
theorem conflicts_unparseable_reads_zero_witness :
    Widget.conflicts morningWorld brokenEndHeap 0 ⟨[0, 1]⟩ = false ∧
    Widget.conflicts morningWorld brokenStartHeap 0 ⟨[0, 1]⟩ = true :=
  ⟨(conflicts_unparseable_reads_zero morningWorld brokenEndHeap 0 ⟨[0, 1]⟩).1
      (by decide) (by decide),
   ((conflicts_unparseable_reads_zero morningWorld brokenStartHeap 0 ⟨[0, 1]⟩).2
      (by decide)).2 ⟨1, by decide, by decide, by decide, by decide⟩⟩

/-- Counterexample to C6 as stated: the Holiday is date-only and in the
snapshot, yet `conflicts` is true for it, and it makes the Epoch event
conflict, which alone in a snapshot does not. -/
theorem dateOnly_conflicts_counterexample :
    (yearOneHeap 0).Start.DateTime = "" ∧ (yearOneHeap 0).End.DateTime = "" ∧
    0 ∈ (Events.mk [0, 1]).Items ∧
    Widget.conflicts morningWorld yearOneHeap 0 ⟨[0, 1]⟩ = true ∧
    Widget.conflicts morningWorld yearOneHeap 1 ⟨[0, 1]⟩ = true ∧
    Widget.conflicts morningWorld yearOneHeap 1 ⟨[1]⟩ = false := by
  decide

/-- Dropping from the list an address whose event does not overlap `e`
leaves the result of the loop of `conflicts` unchanged. -/
theorem conflictsLoop_filter_ne (w : World) (heap : Heap) (e d : EventPtr) (items : List EventPtr)
    (hd : ¬ strictlyOverlap (w.parseTime (heap e).Start.DateTime) (w.parseTime (heap e).End.DateTime)
          (w.parseTime (heap d).Start.DateTime) (w.parseTime (heap d).End.DateTime)) :
    Widget.conflictsLoop w heap e (items.filter (fun p => decide (p ≠ d))) =
      Widget.conflictsLoop w heap e items := by
  rw [Bool.eq_iff_iff, conflictsLoop_iff, conflictsLoop_iff]
  constructor
  · rintro ⟨f, hf, hne, hov⟩
    exact ⟨f, (List.mem_filter.mp hf).1, hne, hov⟩
  · rintro ⟨f, hf, hne, hov⟩
    refine ⟨f, List.mem_filter.mpr ⟨hf, ?_⟩, hne, hov⟩
    simp only [ne_eq, decide_not, Bool.not_eq_true', decide_eq_false_iff_not]
    intro hfd
    subst hfd
    exact hd hov

/-- C6, amended: let `D` be a date-only event (empty `Start.DateTime` and
`End.DateTime`, which do not parse) in a snapshot `S` in which no other event
starts before and ends after the zero time `0001-01-01T00:00:00Z`. Then
`conflicts(D, S)` is false, every other event of `S` conflicts exactly as it
does in `S` without `D`, and, at every current time and with no condition on
`S`, `eventIsNow(D)` is false. -/
theorem dateOnly_never_conflicts_nor_now (w : World) (heap : Heap) (d : EventPtr) (S : Events)
    (hparse : w.parse "" = none)
    (hstart : (heap d).Start.DateTime = "") (hend : (heap d).End.DateTime = "") :
    ((∀ f ∈ S.Items, f ≠ d →
        ¬ ((w.parseTime (heap f).Start.DateTime).ns < 0 ∧ 0 < (w.parseTime (heap f).End.DateTime).ns)) →
      Widget.conflicts w heap d S = false ∧
      ∀ e ∈ S.Items, e ≠ d →
        Widget.conflicts w heap e S =
          Widget.conflicts w heap e ⟨S.Items.filter (fun p => decide (p ≠ d))⟩) ∧
    Widget.eventIsNow w (heap d) = false := by
  have hs : w.parseTime (heap d).Start.DateTime = Time.zero := by
    rw [hstart]; exact parseTime_of_fail w _ hparse
  have he : w.parseTime (heap d).End.DateTime = Time.zero := by
    rw [hend]; exact parseTime_of_fail w _ hparse
  constructor
  · intro hother
    constructor
    · rw [conflicts_eq_false_iff]
      intro f hf hne
      have h0 := hother f hf hne
      rw [hs, he]
      unfold strictlyOverlap
      simp only [Time.zero]
      omega
    · intro e hemem hne
      unfold Widget.conflicts
      symm
      apply conflictsLoop_filter_ne
      have h0 := hother e hemem hne
      rw [hs, he]
      unfold strictlyOverlap
      simp only [Time.zero]
      omega
  · unfold Widget.eventIsNow
    rw [hs, he]
    simp only [Time.After, Time.Before, Time.zero, Bool.and_eq_false_imp, decide_eq_true_eq,
      decide_eq_false_iff_not]
    omega

/-- Witness of amended C6: the Holiday does not conflict, the Standup
conflicts with or without the Holiday in the snapshot, and the Holiday is not
happening now. -/
theorem dateOnly_never_conflicts_nor_now_witness :
    (Widget.conflicts morningWorld holidayHeap 0 ⟨[0, 1, 2]⟩ = false ∧
      ∀ e ∈ [0, 1, 2], e ≠ 0 →
        Widget.conflicts morningWorld holidayHeap e ⟨[0, 1, 2]⟩ =
          Widget.conflicts morningWorld holidayHeap e
            ⟨[0, 1, 2].filter (fun p => decide (p ≠ 0))⟩) ∧
    Widget.eventIsNow morningWorld (holidayHeap 0) = false :=
  ⟨(dateOnly_never_conflicts_nor_now morningWorld holidayHeap 0 ⟨[0, 1, 2]⟩
      (by decide) (by decide) (by decide)).1 (by decide),
   (dateOnly_never_conflicts_nor_now morningWorld holidayHeap 0 ⟨[0, 1, 2]⟩
      (by decide) (by decide) (by decide)).2⟩

/-! ## Properties of `until` -/

/-- Go's `%` truncates toward zero: for a negative dividend the remainder is
minus the remainder of the absolute value. -/
theorem tmod_of_neg (d m : Int) (hd : d < 0) (hm : 0 ≤ m) : d.tmod m = -((-d) % m) := by
  have h1 : d.tdiv m = -((-d).tdiv m) := by
    have := Int.neg_tdiv (-d) m
    rw [neg_neg] at this
    exact this
  have h2 : (-d).tdiv m = (-d) / m := Int.tdiv_eq_ediv (by omega) hm
  rw [Int.tmod_def, h1, h2]
  have h3 := Int.emod_add_ediv (-d) m
  linarith

/-- For a non-negative duration that fits an int64, `Round(time.Minute)` is
the multiple of a minute below it when the remainder is under half a minute,
and the one above it otherwise; nothing wraps. -/
theorem round_minute_of_nonneg (d0 : Int) (h0 : 0 ≤ d0) (hhi : d0 ≤ maxDuration) :
    Duration.Round d0 Minute =
      if 2 * (d0 % 60000000000) < 60000000000 then d0 - d0 % 60000000000
      else d0 + 60000000000 - d0 % 60000000000 := by
  unfold maxDuration at hhi
  have ht : d0.tmod 60000000000 = d0 % 60000000000 := Int.tmod_eq_emod h0 (by decide)
  have hneg : ¬ d0 < 0 := by omega
  simp only [Duration.Round, Minute, Second, lessThanHalf, toUint64, wrap64, minDuration, maxDuration]
  norm_num only
  simp only [hneg, if_false, ht, decide_eq_true_eq]
  split_ifs <;> omega

/-- For a negative duration that fits an int64, `Round(time.Minute)` is the
multiple of a minute above it when it is less than half a minute away, and
the one below it otherwise; nothing wraps. -/
theorem round_minute_of_neg (d0 : Int) (h0 : d0 < 0) (hlo : minDuration ≤ d0) :
    Duration.Round d0 Minute =
      if 2 * ((-d0) % 60000000000) < 60000000000 then d0 + (-d0) % 60000000000
      else d0 - 60000000000 + (-d0) % 60000000000 := by
  unfold minDuration at hlo
  have ht := tmod_of_neg d0 60000000000 h0 (by decide)
  simp only [Duration.Round, Minute, Second, lessThanHalf, toUint64, wrap64, minDuration, maxDuration]
  norm_num only
  simp only [h0, if_true, if_false, ht, neg_neg, decide_eq_true_eq]
  split_ifs <;> omega

/-- What `Round(time.Minute)` does to a duration that fits an int64: the
result is a whole number of minutes, fits an int64, and lies within half a
minute of the duration, a tie going away from zero. -/
theorem round_minute_spec (d0 : Int) (hlo : minDuration ≤ d0) (hhi : d0 ≤ maxDuration) :
    (Duration.Round d0 Minute) % 60000000000 = 0 ∧
    minDuration ≤ Duration.Round d0 Minute ∧ Duration.Round d0 Minute ≤ maxDuration ∧
    (0 ≤ d0 → -30000000000 < Duration.Round d0 Minute - d0 ∧ Duration.Round d0 Minute - d0 ≤ 30000000000) ∧
    (d0 < 0 → -30000000000 ≤ Duration.Round d0 Minute - d0 ∧ Duration.Round d0 Minute - d0 < 30000000000) := by
  by_cases hneg : d0 < 0
  · rw [round_minute_of_neg d0 hneg hlo]
    unfold minDuration at *
    unfold maxDuration at *
    split_ifs <;> refine ⟨?_, ?_, ?_, ?_, ?_⟩ <;> intros <;> omega
  · rw [round_minute_of_nonneg d0 (by omega) hhi]
    unfold minDuration at *
    unfold maxDuration at *
    split_ifs <;> refine ⟨?_, ?_, ?_, ?_, ?_⟩ <;> intros <;> omega

/-- Formatting a non-negative integer with `%d` gives its decimal numeral. -/
theorem sprintfD_natCast (n : Nat) : sprintfD (n : Int) = toString n := rfl

/-- When the rounded duration is not negative, `until` shows the countdown unit
of the specification between its two colour tags. -/
theorem until_of_nonneg (w : World) (event : Event) (h : 0 ≤ roundedUntil w event) :
    Widget.until w event = "[lightblue]" ++ countdownUnit (roundedUntil w event) ++ "[white]" := by
  unfold roundedUntil at h
  obtain ⟨n, hn⟩ := Int.eq_ofNat_of_zero_le h
  have hnot : ¬ ((n : Int) < 0) := by omega
  have hday : (24 : Int) * Hour = 86400000000000 := by
    simp only [Hour, Minute, Second]; norm_num
  have hhour : Hour = 3600000000000 := by
    simp only [Hour, Minute, Second]; norm_num
  have hmin : Minute = 60000000000 := by
    simp only [Minute, Second]; norm_num
  have e1 : (n : Int).tdiv 86400000000000 = ((n / 86400000000000 : Nat) : Int) := by
    rw [Int.tdiv_eq_ediv (by omega) (by decide)]; omega
  have e2 : (n : Int) - ((n / 86400000000000 : Nat) : Int) * 86400000000000
      = ((n % 86400000000000 : Nat) : Int) := by omega
  have e3 : ((n % 86400000000000 : Nat) : Int).tdiv 3600000000000
      = ((n % 86400000000000 / 3600000000000 : Nat) : Int) := by
    rw [Int.tdiv_eq_ediv (by omega) (by decide)]; omega
  have e4 : ((n % 86400000000000 : Nat) : Int)
      - ((n % 86400000000000 / 3600000000000 : Nat) : Int) * 3600000000000
      = ((n % 86400000000000 % 3600000000000 : Nat) : Int) := by omega
  have e5 : ((n % 86400000000000 % 3600000000000 : Nat) : Int).tdiv 60000000000
      = ((n % 86400000000000 % 3600000000000 / 60000000000 : Nat) : Int) := by
    rw [Int.tdiv_eq_ediv (by omega) (by decide)]; omega
  unfold Widget.until roundedUntil countdownUnit
  simp only [hday]
  rw [hhour]
  simp only [hn, hnot, if_false, e1, e2, e3, e4, e5, sprintfD_natCast, Int.toNat_ofNat,
    gt_iff_lt, Nat.cast_pos]
  rw [hmin, e5, sprintfD_natCast]

/-- When the rounded duration is negative, `until` returns the empty string. -/
theorem until_of_neg (w : World) (event : Event) (h : roundedUntil w event < 0) :
    Widget.until w event = "" := by
  unfold roundedUntil at h
  unfold Widget.until
  simp only [h, if_true]

/-- What `t.Sub(u)` returns: always a value that fits an int64, the exact
difference when that fits, and otherwise the nearest end of the int64 range. -/
theorem sub_bounds (t u : Time) :
    minDuration ≤ t.Sub u ∧ t.Sub u ≤ maxDuration ∧
    (minDuration ≤ t.ns - u.ns → t.ns - u.ns ≤ maxDuration → t.Sub u = t.ns - u.ns) ∧
    (t.ns - u.ns < minDuration → t.Sub u = minDuration) ∧
    (maxDuration < t.ns - u.ns → t.Sub u = maxDuration) := by
  unfold Time.Sub minDuration maxDuration
  simp only
  split_ifs <;> refine ⟨?_, ?_, ?_, ?_, ?_⟩ <;> intros <;> omega

/-- The rounded duration is negative exactly when the start lies thirty
seconds or more before the clock reading. -/
theorem roundedUntil_sign (w : World) (event : Event) :
    (roundedUntil w event < 0 ↔
      (w.parseTime event.Start.DateTime).ns - w.now.ns ≤ -30000000000) := by
  unfold roundedUntil World.timeUntil
  obtain ⟨hlo, hhi, hin, hunder, hover⟩ := sub_bounds (w.parseTime event.Start.DateTime) w.now
  obtain ⟨hmod, -, -, hpos, hneg⟩ := round_minute_spec _ hlo hhi
  unfold minDuration maxDuration at *
  constructor
  · intro h
    by_contra hc
    omega
  · intro h
    omega

/-- C7: with `d` the duration `start - now` rounded to the nearest minute (the
value `time.Until(start).Round(time.Minute)` the code computes) and `d ≥ 0`,
the countdown `until` displays, between its colour tags, is exactly one unit:
`{N}d` with `N` the whole days in `d` if that is positive, else `{N}h` with `N`
the whole hours in the remainder if that is positive, else `{N}m` with `N` the
whole minutes in the remainder (`0m` included). Whenever `start - now` fits a
`time.Duration`, `d` is a whole number of minutes within thirty seconds of
`start - now`. A difference of 25h30m gives `1d`, one of 90m gives `1h`, one of
45m gives `45m`. -/
theorem until_shows_single_coarsest_unit (w : World) (event : Event) :
    (0 ≤ roundedUntil w event →
      Widget.until w event = "[lightblue]" ++ countdownUnit (roundedUntil w event) ++ "[white]") ∧
    (minDuration ≤ (w.parseTime event.Start.DateTime).ns - w.now.ns →
      (w.parseTime event.Start.DateTime).ns - w.now.ns ≤ maxDuration →
      roundedUntil w event % Minute = 0 ∧
      -(30 * Second) ≤ roundedUntil w event - ((w.parseTime event.Start.DateTime).ns - w.now.ns) ∧
      roundedUntil w event - ((w.parseTime event.Start.DateTime).ns - w.now.ns) ≤ 30 * Second) ∧
    ((w.parseTime event.Start.DateTime).ns - w.now.ns = 25 * Hour + 30 * Minute →
      Widget.until w event = "[lightblue]1d[white]") ∧
    ((w.parseTime event.Start.DateTime).ns - w.now.ns = 90 * Minute →
      Widget.until w event = "[lightblue]1h[white]") ∧
    ((w.parseTime event.Start.DateTime).ns - w.now.ns = 45 * Minute →
      Widget.until w event = "[lightblue]45m[white]") := by
  obtain ⟨hlo, hhi, hin, -, -⟩ := sub_bounds (w.parseTime event.Start.DateTime) w.now
  have hval : ∀ k : Int, 0 ≤ k → k ≤ maxDuration → k % 60000000000 = 0 →
      (w.parseTime event.Start.DateTime).ns - w.now.ns = k → roundedUntil w event = k := by
    intro k hk0 hkmax hkmod hk
    unfold roundedUntil World.timeUntil
    rw [hin (by unfold minDuration; omega) (by omega), hk, round_minute_of_nonneg k hk0 hkmax]
    split_ifs <;> omega
  refine ⟨until_of_nonneg w event, ?_, ?_, ?_, ?_⟩
  · intro h1 h2
    obtain ⟨hmod, -, -, hpos, hneg⟩ := round_minute_spec _ hlo hhi
    have hM : Minute = 60000000000 := by simp only [Minute, Second]; norm_num
    have hS : (30 : Int) * Second = 30000000000 := by simp only [Second]; norm_num
    unfold roundedUntil World.timeUntil
    rw [hin h1 h2] at hmod hpos hneg ⊢
    generalize Duration.Round _ Minute = R at hmod hpos hneg ⊢
    rw [hM, hS]
    refine ⟨hmod, ?_, ?_⟩ <;> omega
  · intro h
    have hv := hval 91800000000000 (by decide) (by decide) (by decide)
      (by rw [h]; simp only [Hour, Minute, Second]; norm_num)
    rw [until_of_nonneg w event (by rw [hv]; decide), hv]
    decide
  · intro h
    have hv := hval 5400000000000 (by decide) (by decide) (by decide)
      (by rw [h]; simp only [Hour, Minute, Second]; norm_num)
    rw [until_of_nonneg w event (by rw [hv]; decide), hv]
    decide
  · intro h
    have hv := hval 2700000000000 (by decide) (by decide) (by decide)
      (by rw [h]; simp only [Hour, Minute, Second]; norm_num)
    rw [until_of_nonneg w event (by rw [hv]; decide), hv]
    decide

/-- Witness of C7: at eight in the morning an event that starts at half past
nine the next day is 25h30m away, and its countdown is `1d`. -/
theorem until_shows_single_coarsest_unit_witness :
    0 ≤ roundedUntil morningWorld tomorrowEvent ∧
    (morningWorld.parseTime tomorrowEvent.Start.DateTime).ns - morningWorld.now.ns
      = 25 * Hour + 30 * Minute ∧
    Widget.until morningWorld tomorrowEvent
      = "[lightblue]" ++ countdownUnit (roundedUntil morningWorld tomorrowEvent) ++ "[white]" ∧
    Widget.until morningWorld tomorrowEvent = "[lightblue]1d[white]" :=
  ⟨by decide, by decide,
   (until_shows_single_coarsest_unit morningWorld tomorrowEvent).1 (by decide),
   (until_shows_single_coarsest_unit morningWorld tomorrowEvent).2.2.1 (by decide)⟩

/-- C8 fails on the code. The Standup started twenty seconds before the clock
reading, so its start is earlier than the current time and the comment of
`until` ("If the event is in the past, returns nil") asks for no countdown;
the code rounds the duration of -20s to 0 before it tests the sign and returns
the countdown `0m`, not the empty string. -/
theorem until_just_started_shows_countdown :
    (morningWorld.parseTime justStartedEvent.Start.DateTime).ns < morningWorld.now.ns ∧
    Widget.until morningWorld justStartedEvent = "[lightblue]0m[white]" ∧
    Widget.until morningWorld justStartedEvent ≠ "" := by
  decide

/-- When the rounded duration is not negative, `until` is not the empty string. -/
theorem until_ne_empty_of_nonneg (w : World) (event : Event) (h : 0 ≤ roundedUntil w event) :
    Widget.until w event ≠ "" := by
  rw [until_of_nonneg w event h]
  intro hc
  have hl := congrArg String.length hc
  simp only [String.length_append] at hl
  have h11 : "[lightblue]".length = 11 := by decide
  have h0 : "".length = 0 := by decide
  omega

/-- The exact behaviour of the sign test of `until`: the result is the empty
string exactly when the start lies thirty seconds or more before the clock
reading, that is when `start - now` rounded to the nearest minute is negative. -/
theorem until_empty_iff (w : World) (event : Event) :
    Widget.until w event = "" ↔
      (w.parseTime event.Start.DateTime).ns - w.now.ns ≤ -(30 * Second) := by
  have hs : -(30 * Second) = -30000000000 := by simp only [Second]; norm_num
  rw [hs, ← roundedUntil_sign]
  constructor
  · intro h
    by_contra hc
    exact until_ne_empty_of_nonneg w event (by omega) h
  · exact until_of_neg w event

/-! ## Properties of `titleColor` -/

/-- On a highlight list made of (pattern, colour) pairs the loop of
`titleColor` does not fault and ends with the colour of the last matching
rule, or with the colour it started from. -/
theorem titleColorLoop_pairs (w : World) (event : Event) (rules : List (String × String))
    (color : String) :
    Widget.titleColorLoop w event (rules.map (fun r => [r.1, r.2])) color =
      some (match (rules.filter (ruleMatches w event.Summary)).getLast? with
            | some rule => rule.2
            | none => color) := by
  induction rules generalizing color with
  | nil => simp [Widget.titleColorLoop]
  | cons r rest ih =>
    simp only [List.map_cons, Widget.titleColorLoop, List.getElem?_cons_zero,
      List.getElem?_cons_succ]
    by_cases hm : ruleMatches w event.Summary r = true
    · have hm2 : (w.matchString (w.toLower r.1) (w.toLower event.Summary)).getD false = true := by
        simp only [ruleMatches, beq_iff_eq] at hm
        rw [hm]; rfl
      simp only [hm2, if_true, ih, List.filter_cons, hm]
      rw [List.getLast?_cons]
      cases hl : (rest.filter (ruleMatches w event.Summary)).getLast? with
      | none => rfl
      | some x => rfl
    · have hm2 : ¬ ((w.matchString (w.toLower r.1) (w.toLower event.Summary)).getD false = true) := by
        intro h
        apply hm
        simp only [ruleMatches, beq_iff_eq]
        cases hx : w.matchString (w.toLower r.1) (w.toLower event.Summary) with
        | none => rw [hx] at h; simp at h
        | some b => rw [hx] at h; simp at h; rw [h]
      simp only [hm2, if_false, ih, List.filter_cons, hm]
      simp

/-- On a highlight list made of (pattern, colour) pairs `titleColor` returns
the past colour for a past event and the last matching colour otherwise. -/
theorem titleColor_of_pairs (w : World) (event : Event) (rules : List (String × String))
    (hcfg : w.config.colorsHighlights = rules.map (fun r => [r.1, r.2])) :
    Widget.titleColor w event =
      some (if Widget.eventIsPast w event then w.config.colorsPast
            else lastMatchColor w rules event.Summary) := by
  unfold Widget.titleColor
  rw [hcfg, titleColorLoop_pairs]
  simp only [lastMatchColor]
  split_ifs <;> rfl

/-- Counterexample to C9 as stated: the all-day Holiday of 15 January is not
past on the morning of 1 January (its date is still to come) and the rule
`("holiday", "red")` matches its summary, yet `titleColor` returns the past
colour `gray`: the empty `Start.DateTime` is read as the zero time, so the
code takes every date-only event for past. -/
theorem titleColor_future_allday_counterexample :
    holidayWorld.now.ns < ((plainFormatter.parseDate holidayEvent.Start.Date).getD Time.zero).ns ∧
    holidayWorld.config.colorsHighlights = [["holiday", "red"]] ∧
    holidayWorld.matchString (holidayWorld.toLower "holiday")
      (holidayWorld.toLower holidayEvent.Summary) = some true ∧
    Widget.titleColor holidayWorld holidayEvent = some "gray" ∧
    Widget.titleColor holidayWorld holidayEvent ≠ some "red" := by
  decide

/-- C9, amended: for an ordered list of highlight rules (pattern, colour) and a
timed event (its start and end timestamps parse) that is still to start (now ≤
start) or still running (now < end), `titleColor` returns the colour of the
last rule in list order whose lower-cased pattern matches the lower-cased
summary, and the configured title colour when no rule matches. With the rules
`("meeting", "yellow")`, `("standup", "green")` and the summary
`Daily Standup Meeting` the result is `green`. -/
theorem titleColor_last_match_wins_timed (w : World) (event : Event)
    (rules : List (String × String)) (start stop : Time)
    (hcfg : w.config.colorsHighlights = rules.map (fun r => [r.1, r.2]))
    (hstart : w.parse event.Start.DateTime = some start)
    (hstop : w.parse event.End.DateTime = some stop)
    (hnotpast : w.now.ns ≤ start.ns ∨ w.now.ns < stop.ns) :
    (∀ (before after : List (String × String)) (rule : String × String),
      rules = before ++ rule :: after →
      w.matchString (w.toLower rule.1) (w.toLower event.Summary) = some true →
      (∀ r ∈ after, w.matchString (w.toLower r.1) (w.toLower event.Summary) ≠ some true) →
      Widget.titleColor w event = some rule.2) ∧
    ((∀ r ∈ rules, w.matchString (w.toLower r.1) (w.toLower event.Summary) ≠ some true) →
      Widget.titleColor w event = some w.config.colorsTitle) ∧
    (rules = [("meeting", "yellow"), ("standup", "green")] →
      event.Summary = "Daily Standup Meeting" →
      w.toLower "Daily Standup Meeting" = "daily standup meeting" →
      w.toLower "meeting" = "meeting" → w.toLower "standup" = "standup" →
      w.matchString "meeting" "daily standup meeting" = some true →
      w.matchString "standup" "daily standup meeting" = some true →
      Widget.titleColor w event = some "green") := by
  have hnp : Widget.eventIsPast w event = false := by
    unfold Widget.eventIsPast Widget.eventIsNow
    rw [parseTime_of_parse w _ _ hstart, parseTime_of_parse w _ _ hstop, Bool.eq_false_iff]
    intro h
    simp only [Time.After, Time.Before, Bool.and_eq_true, beq_iff_eq, Bool.and_eq_false_imp,
      decide_eq_true_eq, decide_eq_false_iff_not] at h
    obtain ⟨h1, h2⟩ := h
    have h3 := h1 (by omega)
    omega
  have hmain := titleColor_of_pairs w event rules hcfg
  rw [hnp] at hmain
  simp only [Bool.false_eq_true, if_false] at hmain
  have hlast : ∀ (before after : List (String × String)) (rule : String × String),
      rules = before ++ rule :: after →
      w.matchString (w.toLower rule.1) (w.toLower event.Summary) = some true →
      (∀ r ∈ after, w.matchString (w.toLower r.1) (w.toLower event.Summary) ≠ some true) →
      Widget.titleColor w event = some rule.2 := by
    intro before after rule hsplit hm hafter
    have hf : after.filter (ruleMatches w event.Summary) = [] := by
      rw [List.filter_eq_nil_iff]
      intro r hr
      simp only [ruleMatches, beq_iff_eq]
      exact hafter r hr
    have hr : ruleMatches w event.Summary rule = true := by
      simp only [ruleMatches, beq_iff_eq]; exact hm
    rw [hmain, lastMatchColor, hsplit, List.filter_append, List.filter_cons, hr, if_pos rfl, hf,
      List.getLast?_append]
    rfl
  refine ⟨hlast, ?_, ?_⟩
  · intro hnone
    have hf : rules.filter (ruleMatches w event.Summary) = [] := by
      rw [List.filter_eq_nil_iff]
      intro r hr
      simp only [ruleMatches, beq_iff_eq]
      exact hnone r hr
    rw [hmain, lastMatchColor, hf]
    rfl
  · intro hrules hsum hl1 hl2 hl3 _ hm2
    have := hlast [("meeting", "yellow")] [] ("standup", "green") (by rw [hrules]; rfl)
      (by rw [hsum, hl1, hl3]; exact hm2) (by simp)
    exact this

/-- Witness of amended C9: the Daily Standup Meeting, which starts at nine,
is still to start at eight and is titled in green. -/
theorem titleColor_last_match_wins_timed_witness :
    highlightWorld.now.ns ≤ (startOf (heapOf [standupEvent]) 0).ns ∧
    Widget.titleColor highlightWorld standupEvent = some "green" :=
  ⟨by decide,
   (titleColor_last_match_wins_timed highlightWorld standupEvent
      [("meeting", "yellow"), ("standup", "green")]
      (startOf (heapOf [standupEvent]) 0) (endOf (heapOf [standupEvent]) 0)
      (by decide) (by decide) (by decide) (Or.inl (by decide))).2.2
      rfl rfl (by decide) (by decide) (by decide) (by decide) (by decide)⟩

/-- C10: for a timed event with start ≤ end whose end is before the current time
and for every list of highlight rules, `titleColor` returns the configured
past colour, whether or not a rule matches the summary. -/
theorem titleColor_past_wins (w : World) (event : Event) (rules : List (String × String))
    (start stop : Time)
    (hcfg : w.config.colorsHighlights = rules.map (fun r => [r.1, r.2]))
    (hstart : w.parse event.Start.DateTime = some start)
    (hstop : w.parse event.End.DateTime = some stop)
    (hle : start.ns ≤ stop.ns) (hpast : stop.ns < w.now.ns) :
    Widget.titleColor w event = some w.config.colorsPast := by
  have hp : Widget.eventIsPast w event = true := by
    unfold Widget.eventIsPast Widget.eventIsNow
    rw [parseTime_of_parse w _ _ hstart, parseTime_of_parse w _ _ hstop]
    simp only [Time.After, Time.Before, Bool.and_eq_true, beq_iff_eq, Bool.and_eq_false_imp,
      decide_eq_true_eq, decide_eq_false_iff_not]
    constructor
    · intro _; omega
    · omega
  rw [titleColor_of_pairs w event rules hcfg, hp]
  rfl

/-- Witness of C10: the Daily Standup Meeting that ended at a quarter past
seven is titled in the past colour at eight, with no highlight rule and with
matching ones, while the upcoming one is titled in green. -/
theorem titleColor_past_wins_witness :
    Widget.titleColor (worldAt "2024-01-01T08:00:00Z" defaultConfig) earlyStandupEvent = some "gray" ∧
    Widget.titleColor highlightWorld earlyStandupEvent = some "gray" ∧
    Widget.titleColor highlightWorld standupEvent = some "green" :=
  ⟨titleColor_past_wins morningWorld earlyStandupEvent []
      ((parseRFC3339 "2024-01-01T07:00:00Z").getD Time.zero)
      ((parseRFC3339 "2024-01-01T07:15:00Z").getD Time.zero)
      (by decide) (by decide) (by decide) (by decide) (by decide),
   titleColor_past_wins highlightWorld earlyStandupEvent
      [("meeting", "yellow"), ("standup", "green")]
      ((parseRFC3339 "2024-01-01T07:00:00Z").getD Time.zero)
      ((parseRFC3339 "2024-01-01T07:15:00Z").getD Time.zero)
      (by decide) (by decide) (by decide) (by decide) (by decide),
   by decide⟩


/-! ## Properties of the renderer -/

/-- What `dayDivider` compares: it returns the divider exactly when the days
of the month of the two starts differ, a start that fails to parse being read
as the zero time. -/
theorem dayDivider_some (w : World) (event prev : Event) :
    (Widget.dayDivider w event (some prev) = "\n" ↔
      (w.parseTime event.Start.DateTime).Day ≠ (w.parseTime prev.Start.DateTime).Day) ∧
    (Widget.dayDivider w event (some prev) = "" ↔
      (w.parseTime event.Start.DateTime).Day = (w.parseTime prev.Start.DateTime).Day) := by
  unfold Widget.dayDivider
  by_cases h : (w.parseTime event.Start.DateTime).Day = (w.parseTime prev.Start.DateTime).Day
  · simp only [h, ne_eq, not_true_eq_false, if_false, iff_false, iff_true]
    exact ⟨by decide, trivial⟩
  · simp only [h, ne_eq, not_false_eq_true, if_true, iff_true, iff_false]
    exact ⟨trivial, by decide⟩

/-- Counterexample to C11 as stated. A meeting on 15 February that follows a
meeting on 15 January gets no divider although the calendar days differ (the
code compares days of the month). A meeting on 15 January that follows an
all-day event of 15 January gets a divider although the calendar day is the
same (the start of the all-day event does not parse and is read as the zero
time, whose day is 1). -/
theorem dayDivider_counterexample :
    (startOf (heapOf [februaryEvent]) 0).Date ≠ (startOf (heapOf [januaryEvent]) 0).Date ∧
    Widget.dayDivider morningWorld februaryEvent (some januaryEvent) = "" ∧
    ((plainFormatter.parseDate holidayEvent.Start.Date).getD Time.zero).Date
      = (startOf (heapOf [januaryEvent]) 0).Date ∧
    Widget.dayDivider morningWorld januaryEvent (some holidayEvent) = "\n" := by
  decide

/-- C11, amended: `dayDivider` returns the empty string when there is no
preceding event. For two timed events whose starts fall in the same month of
the same year (each read in its own zone offset) it returns the divider, a
line break, exactly when the calendar days of the two starts differ, and the
empty string when they are the same day. For two events whose starts both
fail to parse (date-only events) it returns the empty string. -/
theorem dayDivider_within_month (w : World) (event : Event) :
    Widget.dayDivider w event none = "" ∧
    (∀ (prev : Event) (curr before : Time),
      w.parse event.Start.DateTime = some curr → w.parse prev.Start.DateTime = some before →
      curr.Year = before.Year → curr.Month = before.Month →
      (Widget.dayDivider w event (some prev) = "\n" ↔ curr.Date ≠ before.Date) ∧
      (Widget.dayDivider w event (some prev) = "" ↔ curr.Date = before.Date)) ∧
    (∀ prev : Event,
      w.parse event.Start.DateTime = none → w.parse prev.Start.DateTime = none →
      Widget.dayDivider w event (some prev) = "") := by
  refine ⟨rfl, ?_, ?_⟩
  · intro prev curr before hc hb hy hm
    have hd := dayDivider_some w event prev
    rw [parseTime_of_parse w _ _ hc, parseTime_of_parse w _ _ hb] at hd
    have key : curr.Date = before.Date ↔ curr.Day = before.Day := by
      unfold Time.Year at hy
      unfold Time.Month at hm
      unfold Time.Day
      constructor
      · intro h; rw [h]
      · intro h
        exact Prod.ext hy (Prod.ext hm h)
    exact ⟨hd.1.trans (not_congr key).symm, hd.2.trans key.symm⟩
  · intro prev hc hb
    rw [(dayDivider_some w event prev).2, parseTime_of_fail w _ hc, parseTime_of_fail w _ hb]

/-- Witness of amended C11: on 15 January the afternoon meeting follows the
morning meeting without a divider, the meeting of 16 January follows with one,
and two all-day events follow each other without one. -/
theorem dayDivider_within_month_witness :
    Widget.dayDivider morningWorld januaryLateEvent (some januaryEvent) = "" ∧
    Widget.dayDivider morningWorld januaryNextEvent (some januaryEvent) = "\n" ∧
    Widget.dayDivider morningWorld holidayEvent (some holidayEvent) = "" :=
  ⟨((dayDivider_within_month morningWorld januaryLateEvent).2.1 januaryEvent
      (startOf (heapOf [januaryLateEvent]) 0) (startOf (heapOf [januaryEvent]) 0)
      (by decide) (by decide) (by decide) (by decide)).2.2 (by decide),
   ((dayDivider_within_month morningWorld januaryNextEvent).2.1 januaryEvent
      (startOf (heapOf [januaryNextEvent]) 0) (startOf (heapOf [januaryEvent]) 0)
      (by decide) (by decide) (by decide) (by decide)).1.2 (by decide),
   (dayDivider_within_month morningWorld holidayEvent).2.2 holidayEvent (by decide) (by decide)⟩

/-- C12: `contentFrom` returns the empty string when the snapshot is nil and
when the snapshot has no events. -/
theorem contentFrom_nil_or_empty (w : World) (f : Formatter) (heap : Heap) :
    Widget.contentFrom w f heap none = some "" ∧
    Widget.contentFrom w f heap (some ⟨[]⟩) = some "" :=
  ⟨rfl, rfl⟩

set_option maxRecDepth 100000 in
/-- Counterexample to C13 as stated: after a fetch that failed the snapshot of
the widget is nil, and the display step leaves the rendering of the earlier
snapshot in the display sink, which is not the empty string. -/
theorem display_nil_snapshot_counterexample :
    failedFetchWidget.events = none ∧
    sinkText (Widget.display morningWorld plainFormatter morningHeap failedFetchWidget)
      = some renderedWidget.viewText ∧
    renderedWidget.viewText ≠ "" := by
  decide

/-- C13, amended: for a widget state whose snapshot is nil or has no events,
the display step does not fault and leaves the display sink untouched, so the
text of the sink after the step is the text it had before; the same holds for
a `Refresh` whose fetch delivers a nil or empty snapshot. The output is empty
only if the sink was empty before. -/
theorem display_nil_or_empty_keeps_text (w : World) (f : Formatter) (heap : Heap)
    (s : WidgetState) :
    ((s.events = none ∨ s.events = some ⟨[]⟩) →
      sinkText (Widget.display w f heap s) = some s.viewText) ∧
    (∀ fetch : FetchResult, (fetch.events = none ∨ fetch.events = some ⟨[]⟩) →
      sinkText (Widget.Refresh w f heap fetch s) = some s.viewText) := by
  constructor
  · rintro (h | h)
    · simp only [Widget.display, h, sinkText]
    · simp [Widget.display, h, sinkText]
  · rintro fetch (h | h)
    · simp only [Widget.Refresh, WidgetState.UpdateRefreshedAt, Widget.display, h, sinkText]
    · simp [Widget.Refresh, WidgetState.UpdateRefreshedAt, Widget.display, h, sinkText]

/-- Witness of amended C13: the display step on the fresh widget, whose
snapshot is nil, leaves its empty text, and a `Refresh` with an empty snapshot
leaves the rendering the widget shows. -/
theorem display_nil_or_empty_keeps_text_witness :
    sinkText (Widget.display morningWorld plainFormatter morningHeap freshWidget) = some "" ∧
    sinkText (Widget.Refresh morningWorld plainFormatter morningHeap ⟨some ⟨[]⟩, false⟩
      renderedWidget) = some renderedWidget.viewText :=
  ⟨(display_nil_or_empty_keeps_text morningWorld plainFormatter morningHeap freshWidget).1
      (Or.inl rfl),
   (display_nil_or_empty_keeps_text morningWorld plainFormatter morningHeap renderedWidget).2
      ⟨some ⟨[]⟩, false⟩ (Or.inr rfl)⟩

/-- C14: `eventSummary` returns the summary of the event, prefixed with the
current-event glyph exactly when the event is happening now (start < now <
end), and that result prefixed with the conflict glyph exactly when the
conflict flag is true. Being now does not change the colour of the title:
for an event that is happening now `titleColor` returns what the highlight
rules alone give. -/
theorem eventSummary_glyphs (w : World) (event : Event) (conflict : Bool) :
    Widget.eventSummary w event conflict =
      (if conflict = true then w.config.conflictIcon ++ " " else "") ++
      ((if (w.parseTime event.Start.DateTime).ns < w.now.ns ∧
            w.now.ns < (w.parseTime event.End.DateTime).ns
        then w.config.currentIcon ++ " " else "") ++ event.Summary) ∧
    (Widget.eventIsNow w event = true ↔
      ((w.parseTime event.Start.DateTime).ns < w.now.ns ∧
        w.now.ns < (w.parseTime event.End.DateTime).ns)) ∧
    (Widget.eventIsNow w event = true →
      Widget.titleColor w event =
        Widget.titleColorLoop w event w.config.colorsHighlights w.config.colorsTitle) := by
  have hnow : Widget.eventIsNow w event = true ↔
      ((w.parseTime event.Start.DateTime).ns < w.now.ns ∧
        w.now.ns < (w.parseTime event.End.DateTime).ns) := by
    simp only [Widget.eventIsNow, Time.After, Time.Before, Bool.and_eq_true, decide_eq_true_eq,
      gt_iff_lt]
  refine ⟨?_, hnow, ?_⟩
  · unfold Widget.eventSummary
    by_cases hn : Widget.eventIsNow w event = true
    · have hn2 := hnow.mp hn
      cases conflict <;> simp [hn, hn2, String.append_assoc]
    · have hn2 : ¬ ((w.parseTime event.Start.DateTime).ns < w.now.ns ∧
          w.now.ns < (w.parseTime event.End.DateTime).ns) := fun h => hn (hnow.mpr h)
      cases conflict <;> simp [hn, hn2]
  · intro hn
    have hp : Widget.eventIsPast w event = false := by
      simp [Widget.eventIsPast, hn]
    unfold Widget.titleColor
    cases Widget.titleColorLoop w event w.config.colorsHighlights w.config.colorsTitle with
    | none => rfl
    | some c => simp [hp]

/-- Witness of C14: at half past nine the Standup, which runs from nine to
ten, is happening now; flagged as conflicting it is shown with both glyphs,
the later Lunch with none, and the title of the Standup keeps the green of
its highlight rule. -/
theorem eventSummary_glyphs_witness :
    Widget.eventIsNow midMorningWorld (morningHeap 0) = true ∧
    Widget.eventSummary midMorningWorld (morningHeap 0) true = "🚨 🔸 Standup" ∧
    Widget.eventSummary midMorningWorld (morningHeap 2) false = "Lunch" ∧
    Widget.titleColor midMorningWorld (morningHeap 0) = some "green" :=
  ⟨(eventSummary_glyphs midMorningWorld (morningHeap 0) true).2.1.mpr (by decide),
   by decide, by decide,
   ((eventSummary_glyphs midMorningWorld (morningHeap 0) true).2.2 (by decide)).trans (by decide)⟩

/-- The loop of `responseIcon` finds the response status of the first attendee
with the configured email. -/
theorem responseIconLoop_first (w : World) (before after : List EventAttendee)
    (a : EventAttendee) (hbefore : ∀ b ∈ before, b.Email ≠ w.config.email)
    (ha : a.Email = w.config.email) :
    Widget.responseIconLoop w (before ++ a :: after) = a.ResponseStatus := by
  induction before with
  | nil => simp [Widget.responseIconLoop, ha]
  | cons b rest ih =>
    have hb : b.Email ≠ w.config.email := hbefore b (by simp)
    simp only [List.cons_append, Widget.responseIconLoop, hb, if_false]
    exact ih (fun x hx => hbefore x (by simp [hx]))

/-- The loop of `responseIcon` finds the empty status when no attendee has the
configured email. -/
theorem responseIconLoop_none (w : World) (attendees : List EventAttendee)
    (hnone : ∀ b ∈ attendees, b.Email ≠ w.config.email) :
    Widget.responseIconLoop w attendees = "" := by
  induction attendees with
  | nil => rfl
  | cons b rest ih =>
    have hb : b.Email ≠ w.config.email := hnone b (by simp)
    simp only [Widget.responseIconLoop, hb, if_false]
    exact ih (fun x hx => hnone x (by simp [hx]))

/-- With the display of the response status enabled, `responseIcon` is the
grey tag followed by the glyph of the status the loop found. -/
theorem responseIcon_enabled (w : World) (event : Event)
    (hon : w.config.displayResponseStatus = true) :
    Widget.responseIcon w event =
      "[gray]" ++ responseGlyph (Widget.responseIconLoop w event.Attendees) := by
  unfold Widget.responseIcon responseGlyph
  simp only [hon, Bool.false_eq_true, if_false]
  split_ifs <;> rfl

/-- C15: when the display of the response status is enabled, `responseIcon`
shows (after its grey colour tag) the glyph for the response status of the
attendee whose email is the configured viewer email, the first such attendee
in the list: a check for accepted, a cross for declined, a question mark for
needsAction, a tilde for tentative, and no glyph for any other status; it
shows no glyph when no attendee has that email. When the display is disabled
it returns the empty string. -/
theorem responseIcon_glyph (w : World) (event : Event) :
    (w.config.displayResponseStatus = false → Widget.responseIcon w event = "") ∧
    (w.config.displayResponseStatus = true →
      (∀ (before after : List EventAttendee) (a : EventAttendee),
        event.Attendees = before ++ a :: after →
        (∀ b ∈ before, b.Email ≠ w.config.email) → a.Email = w.config.email →
        Widget.responseIcon w event = "[gray]" ++ responseGlyph a.ResponseStatus) ∧
      ((∀ b ∈ event.Attendees, b.Email ≠ w.config.email) →
        Widget.responseIcon w event = "[gray]")) ∧
    (responseGlyph "accepted" = "✔︎ " ∧ responseGlyph "declined" = "✘ " ∧
      responseGlyph "needsAction" = "? " ∧ responseGlyph "tentative" = "~ " ∧
      ∀ status : String, status ≠ "accepted" → status ≠ "declined" →
        status ≠ "needsAction" → status ≠ "tentative" → responseGlyph status = "") := by
  refine ⟨?_, ?_, ?_⟩
  · intro hoff
    unfold Widget.responseIcon
    simp [hoff]
  · intro hon
    constructor
    · intro before after a hsplit hbefore ha
      rw [responseIcon_enabled w event hon, hsplit, responseIconLoop_first w before after a hbefore ha]
    · intro hnone
      rw [responseIcon_enabled w event hon, responseIconLoop_none w _ hnone]
      rfl
  · refine ⟨by decide, by decide, by decide, by decide, ?_⟩
    intro status h1 h2 h3 h4
    simp [responseGlyph, h1, h2, h3, h4]

/-- Witness of C15: the viewer accepted the invitation, so the icon is the
check; with the display disabled there is no icon. -/
theorem responseIcon_glyph_witness :
    Widget.responseIcon viewerWorld invitationEvent = "[gray]✔︎ " ∧
    Widget.responseIcon morningWorld invitationEvent = "[gray]" ∧
    Widget.responseIcon
      (worldAt "2024-01-01T08:00:00Z" { defaultConfig with displayResponseStatus := false })
      invitationEvent = "" :=
  ⟨((responseIcon_glyph viewerWorld invitationEvent).2.1 (by decide)).1
      [⟨"ann@example.com", "declined"⟩] [⟨"bob@example.com", "tentative"⟩]
      ⟨"me@example.com", "accepted"⟩ (by decide) (by decide) (by decide),
   ((responseIcon_glyph morningWorld invitationEvent).2.1 (by decide)).2 (by decide),
   (responseIcon_glyph (worldAt "2024-01-01T08:00:00Z"
      { defaultConfig with displayResponseStatus := false }) invitationEvent).1 (by decide)⟩

/-! ## Properties of the widget state -/

/-- Counterexample to C16 as stated: the first `Disable` of the fresh widget
returns, and the second one faults with the panic of closing a closed
channel. -/
theorem disable_twice_counterexample :
    ∃ s : WidgetState, Widget.Disable freshWidget = Except.ok s ∧
      Widget.Disable s = Except.error Fault.panic := by
  refine ⟨({ freshWidget with chClosed := true }).textWidgetDisable, ?_, ?_⟩
  · rfl
  · rfl

/-- C16, amended: a `Disable` on a widget whose cancellation signal is open
does not fault and closes the signal; every `Disable` after it faults, since
the code closes the channel without a guard and closing a closed channel
panics. The signal is thus closed once, and the repeated teardown is a
fault. -/
theorem disable_once_then_fault (s : WidgetState) :
    (s.chClosed = false →
      ∃ s' : WidgetState, Widget.Disable s = Except.ok s' ∧ s'.chClosed = true ∧
        s'.enabled = false ∧ Widget.Disable s' = Except.error Fault.panic) ∧
    (s.chClosed = true → Widget.Disable s = Except.error Fault.panic) := by
  constructor
  · intro h
    refine ⟨({ s with chClosed := true }).textWidgetDisable, ?_, ?_, ?_, ?_⟩
    · simp [Widget.Disable, h]
    · rfl
    · rfl
    · rfl
  · intro h
    simp [Widget.Disable, h]

/-- Witness of amended C16: the fresh widget has its signal open, its first
`Disable` closes it, and a widget with the signal closed faults on `Disable`. -/
theorem disable_once_then_fault_witness :
    (∃ s' : WidgetState, Widget.Disable freshWidget = Except.ok s' ∧ s'.chClosed = true ∧
        s'.enabled = false ∧ Widget.Disable s' = Except.error Fault.panic) ∧
    Widget.Disable { freshWidget with chClosed := true } = Except.error Fault.panic :=
  ⟨(disable_once_then_fault freshWidget).1 rfl,
   (disable_once_then_fault { freshWidget with chClosed := true }).2 rfl⟩

/-- Counterexample to C17 as stated: the widget holds the three morning
events, the fetch fails and delivers nil, and after `Refresh` the stored
snapshot is nil: the last good snapshot is gone. -/
theorem refresh_failed_fetch_counterexample :
    renderedWidget.events = some ⟨[0, 1, 2]⟩ ∧
    storedSnapshot (Widget.Refresh morningWorld plainFormatter morningHeap ⟨none, true⟩
      renderedWidget) = some none := by
  decide

/-- C17, amended: `Refresh` discards the error of the fetch. It stores the
snapshot the fetch returned, whether the fetch failed or not, so a failed
fetch that returns nil replaces the stored snapshot with nil. What such a
`Refresh` retains is the text of the display sink: it returns without fault
and the sink shows what it showed before. -/
theorem refresh_stores_fetched (w : World) (f : Formatter) (heap : Heap) (s : WidgetState) :
    (∀ (fetch : FetchResult) (s' : WidgetState),
      Widget.Refresh w f heap fetch s = Except.ok s' → s'.events = fetch.events) ∧
    (∀ snapshot : Option Events,
      Widget.Refresh w f heap ⟨snapshot, true⟩ s = Widget.Refresh w f heap ⟨snapshot, false⟩ s) ∧
    (storedSnapshot (Widget.Refresh w f heap ⟨none, true⟩ s) = some none ∧
      sinkText (Widget.Refresh w f heap ⟨none, true⟩ s) = some s.viewText) := by
  refine ⟨?_, fun _ => rfl, rfl, rfl⟩
  intro fetch s' h
  unfold Widget.Refresh WidgetState.UpdateRefreshedAt Widget.display at h
  simp only at h
  split at h
  · simp only [Except.ok.injEq] at h
    rw [← h]
  · split_ifs at h
    · simp only [Except.ok.injEq] at h
      rw [← h]
    · split at h
      · exact absurd h (by simp)
      · simp only [Except.ok.injEq] at h
        rw [← h]

/-- Witness of amended C17: a `Refresh` of the rendered widget with the
events of the back-to-back heap stores that snapshot. -/
theorem refresh_stores_fetched_witness :
    (stateAfter (Widget.Refresh morningWorld plainFormatter morningHeap ⟨some ⟨[2]⟩, true⟩
      renderedWidget) freshWidget).events = some ⟨[2]⟩ :=
  (refresh_stores_fetched morningWorld plainFormatter morningHeap renderedWidget).1
    ⟨some ⟨[2]⟩, true⟩ _ (by rfl)

/-! ## Faults of `titleColor`, the lock discipline, and date-only events -/

/-- Counterexample to C18 as stated: with a highlight entry that has a pattern
and no colour, `titleColor` faults on an event the pattern matches (the index
`highlightElements[1]` is out of range). -/
theorem titleColor_short_entry_counterexample :
    shortEntryWorld.config.colorsHighlights = [["standup"]] ∧
    Widget.titleColor shortEntryWorld standupEvent = none := by
  decide

/-- The loop of `titleColor` faults exactly when it meets an entry with no
element, or an entry with one element whose pattern matches the summary. -/
theorem titleColorLoop_eq_none_iff (w : World) (event : Event) (entries : List (List String))
    (color : String) :
    Widget.titleColorLoop w event entries color = none ↔
      ∃ entry ∈ entries, entry = [] ∨
        ∃ pattern, entry = [pattern] ∧
          w.matchString (w.toLower pattern) (w.toLower event.Summary) = some true := by
  induction entries generalizing color with
  | nil => simp [Widget.titleColorLoop]
  | cons entry rest ih =>
    have hgetD : ∀ p : String,
        ((w.matchString (w.toLower p) (w.toLower event.Summary)).getD false = true) ↔
          w.matchString (w.toLower p) (w.toLower event.Summary) = some true := by
      intro p
      cases w.matchString (w.toLower p) (w.toLower event.Summary) with
      | none => simp
      | some b => simp
    match entry with
    | [] =>
      simp [Widget.titleColorLoop]
    | [p] =>
      by_cases hm : w.matchString (w.toLower p) (w.toLower event.Summary) = some true
      · simp [Widget.titleColorLoop, hm]
      · have hm2 := (not_congr (hgetD p)).mpr hm
        simp [Widget.titleColorLoop, hm, hm2, ih]
    | p :: c :: more =>
      by_cases hm : w.matchString (w.toLower p) (w.toLower event.Summary) = some true
      · simp [Widget.titleColorLoop, hm, ih]
      · have hm2 := (not_congr (hgetD p)).mpr hm
        simp [Widget.titleColorLoop, hm, hm2, ih]

/-- C18, amended: `titleColor` returns a colour for every highlight list whose
entries have at least two elements, whatever the patterns: an entry whose
pattern is not a valid regular expression is skipped. It faults exactly when
the list holds an entry with no element, or an entry with one element whose
pattern matches the summary. -/
theorem titleColor_faults_iff (w : World) (event : Event) :
    (Widget.titleColor w event = none ↔
      ∃ entry ∈ w.config.colorsHighlights, entry = [] ∨
        ∃ pattern, entry = [pattern] ∧
          w.matchString (w.toLower pattern) (w.toLower event.Summary) = some true) ∧
    ((∀ entry ∈ w.config.colorsHighlights, 2 ≤ entry.length) →
      ∃ color, Widget.titleColor w event = some color) ∧
    (∀ (pattern : String) (more : List String) (rest : List (List String)) (color : String),
      w.matchString (w.toLower pattern) (w.toLower event.Summary) = none →
      Widget.titleColorLoop w event ((pattern :: more) :: rest) color =
        Widget.titleColorLoop w event rest color) := by
  have hiff : Widget.titleColor w event = none ↔
      Widget.titleColorLoop w event w.config.colorsHighlights w.config.colorsTitle = none := by
    unfold Widget.titleColor
    cases Widget.titleColorLoop w event w.config.colorsHighlights w.config.colorsTitle with
    | none => simp
    | some c => simp only [reduceCtorEq, iff_false]; split_ifs <;> simp
  refine ⟨hiff.trans (titleColorLoop_eq_none_iff w event _ _), ?_, ?_⟩
  · intro hlen
    cases hc : Widget.titleColor w event with
    | some c => exact ⟨c, rfl⟩
    | none =>
      obtain ⟨entry, hmem, hbad⟩ := (hiff.trans (titleColorLoop_eq_none_iff w event _ _)).mp hc
      have h2 := hlen entry hmem
      rcases hbad with h | ⟨p, h, -⟩
      · rw [h] at h2; simp at h2
      · rw [h] at h2; simp at h2
  · intro pattern more rest color hnone
    simp [Widget.titleColorLoop, hnone]

/-- Witness of amended C18: with the two rules of the example `titleColor`
returns a colour, and with the entry that lacks its colour it faults on the
standup. -/
theorem titleColor_faults_iff_witness :
    (∃ color, Widget.titleColor highlightWorld standupEvent = some color) ∧
    Widget.titleColor shortEntryWorld standupEvent = none :=
  ⟨(titleColor_faults_iff highlightWorld standupEvent).2.1 (by decide),
   (titleColor_faults_iff shortEntryWorld standupEvent).1.mpr
    ⟨["standup"], by decide, Or.inr ⟨"standup", rfl, by decide⟩⟩⟩

set_option maxRecDepth 100000 in
/-- C19 fails on the code. A `Refresh` of the fresh widget whose fetch delivers
the three morning events performs, in this order: the write of the snapshot,
two reads of it in the guard of `display`, the taking of the mutex, the read
that is passed to `contentFrom`, the release. The write and the two reads of
the guard happen while the mutex is not held. -/
theorem refresh_accesses_outside_mutex :
    traceAfter (Widget.Refresh morningWorld plainFormatter morningHeap
      ⟨some ⟨[0, 1, 2]⟩, false⟩ freshWidget) =
      some [Action.writeEvents, Action.readEvents, Action.readEvents, Action.lock,
        Action.readEvents, Action.unlock] ∧
    everyAccessUnderMutex false [Action.writeEvents, Action.readEvents, Action.readEvents,
      Action.lock, Action.readEvents, Action.unlock] = false ∧
    everyAccessUnderMutex false [Action.lock, Action.readEvents, Action.unlock] = true := by
  decide

/-- C20: for a date-only event (its `Start.DateTime` and `End.DateTime` are
empty and do not parse) and a current time later than the zero time,
`eventIsPast` returns true, so `titleColor` and `descriptionColor` return the
configured past colour, whatever the date of the event and whether or not a
highlight rule matches. -/
theorem dateOnly_is_past (w : World) (event : Event) (rules : List (String × String))
    (hparse : w.parse "" = none)
    (hstart : event.Start.DateTime = "") (hend : event.End.DateTime = "")
    (hnow : Time.zero.ns < w.now.ns)
    (hcfg : w.config.colorsHighlights = rules.map (fun r => [r.1, r.2])) :
    Widget.eventIsPast w event = true ∧
    Widget.titleColor w event = some w.config.colorsPast ∧
    Widget.descriptionColor w event = w.config.colorsPast := by
  have hs : w.parseTime event.Start.DateTime = Time.zero := by
    rw [hstart]; exact parseTime_of_fail w _ hparse
  have he : w.parseTime event.End.DateTime = Time.zero := by
    rw [hend]; exact parseTime_of_fail w _ hparse
  have hp : Widget.eventIsPast w event = true := by
    unfold Widget.eventIsPast Widget.eventIsNow
    rw [hs, he]
    simp only [Time.After, Time.Before, Bool.and_eq_true, beq_iff_eq, Bool.and_eq_false_imp,
      decide_eq_true_eq, decide_eq_false_iff_not]
    constructor
    · intro _; omega
    · exact hnow
  refine ⟨hp, ?_, ?_⟩
  · rw [titleColor_of_pairs w event rules hcfg, hp]
    rfl
  · unfold Widget.descriptionColor
    rw [hp]
    rfl

/-- Witness of C20: the all-day Holiday of 15 January is shown in the past
colour on the morning of 1 January, although the highlight rule for holidays
matches it. -/
theorem dateOnly_is_past_witness :
    Widget.eventIsPast holidayWorld holidayEvent = true ∧
    Widget.titleColor holidayWorld holidayEvent = some "gray" ∧
    Widget.descriptionColor holidayWorld holidayEvent = "gray" :=
  dateOnly_is_past holidayWorld holidayEvent [("holiday", "red")]
    (by decide) (by decide) (by decide) (by decide) (by decide)

end Gcal
